import Mathlib

/-!
GameEngine: lifecycle, scheduled moves, chat commands and item moves; IncomingPacket.

A shallow embedding of `worldserver/src/gameengine.cc` and of the packet reader declared
in `network/export/incoming_packet.h`.  The engine is a record of its member variables;
every member function becomes a function from the engine (and the call's arguments) to
the engine afterwards, in `Option` where the C++ can fault (a lookup of an unknown
creature id, a call through a null world pointer).

The engine's collaborators, the world, the per-player controller and the equipment, are
classes whose sources are outside this translation unit.  They are represented by
recording collaborators: each one keeps the list of calls the engine made on it, and the
world and the equipment answer by a function of the calls made so far.
-/

namespace GameServer

set_option linter.unusedVariables false

/-! ## Data model -/

/-- Creature identifier (`CreatureId`). -/
abbrev CreatureId := Nat

/-- Timestamp (`boost::posix_time::ptime`), a totally ordered clock value. -/
abbrev ptime := Nat

/-- Text (`std::string`), a sequence of characters. -/
abbrev Text := List Char

/-- Modelled from the spec: the `Direction` enumeration (declared in a header that is not
part of the translation unit); the spec speaks of a sequence of directions and of a player
facing east, the four compass directions are taken. -/
inductive Direction where
  | NORTH
  | EAST
  | SOUTH
  | WEST
  deriving DecidableEq, Repr

/-- Position `(x, y, z)`; on the wire two 16-bit coordinates and an 8-bit level. -/
structure Position where
  x : Nat
  y : Nat
  z : Nat
  deriving DecidableEq, Repr

/-- Modelled from the spec: `Position::addDirection` (position.h is missing).  The spec's
scenario fixes the east step, `(100,100,7)` facing east gives `(101,100,7)`; the other
three directions follow the same grid convention. -/
def Position.addDirection (p : Position) (d : Direction) : Position :=
  match d with
  | Direction.NORTH => { p with y := p.y - 1 }
  | Direction.EAST => { p with x := p.x + 1 }
  | Direction.SOUTH => { p with y := p.y + 1 }
  | Direction.WEST => { p with x := p.x - 1 }

/-- Lifecycle state of the engine (`GameEngine::State`), in declaration order. -/
inductive State where
  | INITIALIZED
  | RUNNING
  | CLOSING
  | CLOSED
  deriving DecidableEq, Repr

/-- Position of a lifecycle state in the order INITIALIZED, RUNNING, CLOSING, CLOSED. -/
def State.rank : State → Nat
  | State.INITIALIZED => 0
  | State.RUNNING => 1
  | State.CLOSING => 2
  | State.CLOSED => 3

/-- Modelled from the spec: `World::ReturnCode` (world.h is missing).  The spec lists
`OK`, no-room, cannot-reach, cannot-move "and further codes"; gameengine.cc names the four
below, and every remaining code of the enumeration is `OTHER n`, which is what the
`default:` label of a switch over the code receives. -/
inductive ReturnCode where
  | OK
  | CANNOT_MOVE_THAT_OBJECT
  | CANNOT_REACH_THAT_OBJECT
  | THERE_IS_NO_ROOM
  | OTHER (code : Nat)
  deriving DecidableEq, Repr

/-- An item as far as the engine inspects it: `getItemId()`, `getName()` and `isValid()`. -/
structure Item where
  itemId : Int
  name : Text
  valid : Bool
  deriving DecidableEq, Repr

/-- The query `isValid()`. -/
def Item.isValid (item : Item) : Bool := item.valid

/-- The item a lookup gives when there is nothing to find: it is not valid. -/
def Item.invalid : Item := { itemId := 0, name := [], valid := false }

/-- A tile as far as the engine inspects it: `getItems()` and `getCreatureIds()`. -/
structure Tile where
  items : List Item
  creatureIds : List CreatureId
  deriving DecidableEq, Repr

/-- Modelled from the spec: `Tile::getItem(stackPos)` (tile.h is missing; the spec's stack
position is "the index of an item within a tile's ordered contents"): the item at that
index of the tile's items, an invalid item when there is none. -/
def Tile.getItem (t : Tile) (stackPos : Int) : Item :=
  if 0 ≤ stackPos then t.items.getD stackPos.toNat Item.invalid else Item.invalid

/-- The calls gameengine.cc makes on the world, with their arguments. -/
inductive WorldCall where
  | creatureMove (creatureId : CreatureId) (direction : Direction)
  | creatureTurn (creatureId : CreatureId) (direction : Direction)
  | creatureSay (creatureId : CreatureId) (message : Text)
  | addItem (itemId : Int) (position : Position)
  | moveItem (creatureId : CreatureId) (fromPosition : Position) (fromStackPos : Int)
      (itemId : Int) (count : Int) (toPosition : Position)
  | getCreaturePosition (creatureId : CreatureId)
  | getTile (position : Position)
  | creatureCanReach (creatureId : CreatureId) (position : Position)
  | creatureCanThrowTo (creatureId : CreatureId) (position : Position)
  | removeItem (itemId : Int) (count : Int) (position : Position) (stackPos : Int)
  | addItemObject (item : Item) (position : Position)
  deriving DecidableEq, Repr

/-- A world call that changes the world (the `get...` and `creatureCan...` calls are
queries). -/
def WorldCall.isMutating : WorldCall → Bool
  | WorldCall.getCreaturePosition _ => false
  | WorldCall.getTile _ => false
  | WorldCall.creatureCanReach _ _ => false
  | WorldCall.creatureCanThrowTo _ _ => false
  | _ => true

/-- Modelled from the spec: the `World` collaborator (world.h and world.cc are missing; the
spec excludes the world model and consumes it through a narrow interface).  The world is a
black box: it records every call made on it, oldest first, and each answer it gives is an
arbitrary function of the calls made before. -/
structure World where
  calls : List WorldCall
  creatureMoveResult : List WorldCall → CreatureId → Direction → ReturnCode
  moveItemResult : List WorldCall → CreatureId → Position → Int → Int → Int → Position → ReturnCode
  creaturePosition : List WorldCall → CreatureId → Position
  tileAt : List WorldCall → Position → Tile
  canReachResult : List WorldCall → CreatureId → Position → Bool
  canThrowToResult : List WorldCall → CreatureId → Position → Bool
  removeItemResult : List WorldCall → Int → Int → Position → Int → ReturnCode
  addItemResult : List WorldCall → Item → Position → ReturnCode

/-- The world after one more call has been made on it. -/
def World.record (w : World) (c : WorldCall) : World :=
  { w with calls := w.calls ++ [c] }

/-- The call `world.creatureMove(creatureId, direction)`: result code and world afterwards. -/
def World.creatureMove (w : World) (creatureId : CreatureId) (direction : Direction) :
    ReturnCode × World :=
  (w.creatureMoveResult w.calls creatureId direction,
    w.record (WorldCall.creatureMove creatureId direction))

/-- The call `world.creatureSay(creatureId, message)`. -/
def World.creatureSay (w : World) (creatureId : CreatureId) (message : Text) : World :=
  w.record (WorldCall.creatureSay creatureId message)

/-- The call `world.addItem(itemId, position)` (its result is not used by the engine). -/
def World.addItem (w : World) (itemId : Int) (position : Position) : World :=
  w.record (WorldCall.addItem itemId position)

/-- The call `world.moveItem(...)`: result code and world afterwards. -/
def World.moveItem (w : World) (creatureId : CreatureId) (fromPosition : Position)
    (fromStackPos itemId count : Int) (toPosition : Position) : ReturnCode × World :=
  (w.moveItemResult w.calls creatureId fromPosition fromStackPos itemId count toPosition,
    w.record (WorldCall.moveItem creatureId fromPosition fromStackPos itemId count toPosition))

/-- The call `world.getCreaturePosition(creatureId)`. -/
def World.getCreaturePosition (w : World) (creatureId : CreatureId) : Position × World :=
  (w.creaturePosition w.calls creatureId, w.record (WorldCall.getCreaturePosition creatureId))

/-- The call `world.getTile(position)`. -/
def World.getTile (w : World) (position : Position) : Tile × World :=
  (w.tileAt w.calls position, w.record (WorldCall.getTile position))

/-- The call `world.creatureCanReach(creatureId, position)`. -/
def World.creatureCanReach (w : World) (creatureId : CreatureId) (position : Position) :
    Bool × World :=
  (w.canReachResult w.calls creatureId position,
    w.record (WorldCall.creatureCanReach creatureId position))

/-- The call `world.creatureCanThrowTo(creatureId, position)`. -/
def World.creatureCanThrowTo (w : World) (creatureId : CreatureId) (position : Position) :
    Bool × World :=
  (w.canThrowToResult w.calls creatureId position,
    w.record (WorldCall.creatureCanThrowTo creatureId position))

/-- The call `world.removeItem(itemId, count, position, stackPos)`: result code and world
afterwards; the world has given the item up exactly when the code is OK. -/
def World.removeItem (w : World) (itemId count : Int) (position : Position) (stackPos : Int) :
    ReturnCode × World :=
  (w.removeItemResult w.calls itemId count position stackPos,
    w.record (WorldCall.removeItem itemId count position stackPos))

/-- The call `world.addItem(item, position)` with an item object: result code and world
afterwards; the world has taken the item exactly when the code is OK. -/
def World.addItemObject (w : World) (item : Item) (position : Position) : ReturnCode × World :=
  (w.addItemResult w.calls item position, w.record (WorldCall.addItemObject item position))

/-- The calls on a player's equipment that can change it, with their arguments. -/
inductive EquipmentCall where
  | addItem (item : Item) (inventoryIndex : Int)
  | removeItem (item : Item) (inventoryIndex : Int)
  deriving DecidableEq, Repr

/-- Modelled from the spec: the `Equipment` of a player (equipment.h is missing; the spec
leaves the capacity and type rules to the inventory collaborator).  A black box like the
world: it records the `addItem` and `removeItem` calls made on it, oldest first, and what
it holds, what it accepts and whether a call succeeds are arbitrary functions of the calls
made before. -/
structure Equipment where
  calls : List EquipmentCall
  itemAt : List EquipmentCall → Int → Item
  canAddItemResult : List EquipmentCall → Item → Int → Bool
  addItemResult : List EquipmentCall → Item → Int → Bool
  removeItemResult : List EquipmentCall → Item → Int → Bool

/-- The query `getItem(inventoryIndex)`. -/
def Equipment.getItem (q : Equipment) (inventoryIndex : Int) : Item :=
  q.itemAt q.calls inventoryIndex

/-- The query `canAddItem(item, inventoryIndex)`. -/
def Equipment.canAddItem (q : Equipment) (item : Item) (inventoryIndex : Int) : Bool :=
  q.canAddItemResult q.calls item inventoryIndex

/-- The call `addItem(item, inventoryIndex)`: whether the equipment took the item, and
the equipment afterwards. -/
def Equipment.addItem (q : Equipment) (item : Item) (inventoryIndex : Int) :
    Bool × Equipment :=
  (q.addItemResult q.calls item inventoryIndex,
    { q with calls := q.calls ++ [EquipmentCall.addItem item inventoryIndex] })

/-- The call `removeItem(item, inventoryIndex)`: whether the equipment gave the item up,
and the equipment afterwards. -/
def Equipment.removeItem (q : Equipment) (item : Item) (inventoryIndex : Int) :
    Bool × Equipment :=
  (q.removeItemResult q.calls item inventoryIndex,
    { q with calls := q.calls ++ [EquipmentCall.removeItem item inventoryIndex] })

/-- A player as far as the engine inspects it here: `getName()`, `getDirection()` and
`getEquipment()`. -/
structure Player where
  name : Text
  direction : Direction
  equipment : Equipment

/-- What the engine sends to a player through its controller: cancel and text messages,
and the `onEquipmentUpdated(player, inventoryIndex)` notification. -/
inductive PlayerMessage where
  | cancel (message : Text)
  | textMessage (message : Text)
  | equipmentUpdated (inventoryIndex : Int)
  deriving DecidableEq, Repr

/-- Modelled from the spec: the concrete `PlayerCtrl` of playerctrl.h (missing; the spec's
PlayerSession state): the next allowed move time, the ordered pending-move queue, and the
messages sent to the player so far, oldest first. -/
structure PlayerCtrl where
  nextWalkTime : ptime
  queuedMoves : List Direction
  sent : List PlayerMessage
  deriving DecidableEq, Repr

/-- The accessor `getNextWalkTime()`. -/
def PlayerCtrl.getNextWalkTime (c : PlayerCtrl) : ptime := c.nextWalkTime

/-- The call `sendCancel(message)`: one cancel message goes to the player. -/
def PlayerCtrl.sendCancel (c : PlayerCtrl) (message : Text) : PlayerCtrl :=
  { c with sent := c.sent ++ [PlayerMessage.cancel message] }

/-- The call `onEquipmentUpdated(player, inventoryIndex)`: one notification for the slot
goes to the player. -/
def PlayerCtrl.onEquipmentUpdated (c : PlayerCtrl) (inventoryIndex : Int) : PlayerCtrl :=
  { c with sent := c.sent ++ [PlayerMessage.equipmentUpdated inventoryIndex] }

/-- The call `sendTextMessage(message)`: one text message goes to the player. -/
def PlayerCtrl.sendTextMessage (c : PlayerCtrl) (message : Text) : PlayerCtrl :=
  { c with sent := c.sent ++ [PlayerMessage.textMessage message] }

/-- Modelled from the spec: `queueMoves(path)`, "path moves enqueue the whole path on the
session": the path goes to the back of the pending moves. -/
def PlayerCtrl.queueMoves (c : PlayerCtrl) (path : List Direction) : PlayerCtrl :=
  { c with queuedMoves := c.queuedMoves ++ path }

/-- Modelled from the spec: `hasQueuedMove()`, whether a pending move is left. -/
def PlayerCtrl.hasQueuedMove (c : PlayerCtrl) : Bool := !c.queuedMoves.isEmpty

/-- Modelled from the spec: `getNextQueuedMove()`, "each step consumes one queued
direction": the head of the pending moves is taken off the queue; `none` on an empty
queue, which the engine never asks for. -/
def PlayerCtrl.getNextQueuedMove (c : PlayerCtrl) : Option (Direction × PlayerCtrl) :=
  match c.queuedMoves with
  | [] => none
  | d :: rest => some (d, { c with queuedMoves := rest })

/-- Modelled from the spec: `cancelMove()`, "cancellation clears the queued path". -/
def PlayerCtrl.cancelMove (c : PlayerCtrl) : PlayerCtrl :=
  { c with queuedMoves := [] }

/-- The closures gameengine.cc hands to the task queue: the `creatureMoveFunc` lambda of
`playerMove` with its captures, and `std::bind(&GameEngine::playerMovePathStep, this, id)`. -/
inductive QueuedTask where
  | creatureMoveFunc (creatureId : CreatureId) (direction : Direction)
  | playerMovePathStep (creatureId : CreatureId)
  deriving DecidableEq, Repr

/-- One entry of the task queue: the closure and the time before which it must not run. -/
structure ScheduledTask where
  task : QueuedTask
  notBefore : ptime
  deriving DecidableEq, Repr

/-- The member variables of `GameEngine` this development reads or writes.  `world_` is
`none` for the null pointer `WorldFactory::createWorld` returns when loading fails;
`taskQueue_` lists the pending tasks in the order they were added. -/
structure GameEngine where
  state_ : State
  world_ : Option World
  players_ : CreatureId → Option Player
  playerCtrls_ : CreatureId → Option PlayerCtrl
  taskQueue_ : List ScheduledTask

/-! ## Text: the `std::string` and stream operations the engine uses -/

/-- The call `s.find_first_of(c)`: the index of the first `c`, `none` for `npos`. -/
def find_first_of : Text → Char → Option Nat
  | [], _ => none
  | x :: xs, c => if x = c then some 0 else (find_first_of xs c).map (· + 1)

/-- The call `s.substr(pos, count)`, `count = none` for `npos` (also the default).  The
C++ throws when `pos > s.size()`; the engine calls it with `pos ≤ s.size()` only. -/
def substr (s : Text) (pos : Nat) (count : Option Nat) : Text :=
  match count with
  | none => s.drop pos
  | some n => (s.drop pos).take n

/-- The classification `std::isspace` in the "C" locale. -/
def isSpace (c : Char) : Bool :=
  c = ' ' || (9 ≤ c.toNat && c.toNat ≤ 13)

/-- Leading whitespace is skipped before a formatted extraction. -/
def skipWhitespace : Text → Text
  | [] => []
  | c :: cs => if isSpace c then skipWhitespace cs else c :: cs

/-- The value of the longest run of decimal digits at the front of the text, read left to
right onto the accumulator; the accumulator itself when the text starts with no digit. -/
def readDigits : Text → Nat → Nat
  | [], acc => acc
  | c :: cs, acc => if c.isDigit then readDigits cs (acc * 10 + (c.toNat - 48)) else acc

/-- The largest `int`. -/
def INT_MAX : Int := 2147483647

/-- The smallest `int`. -/
def INT_MIN : Int := -2147483648

/-- The extraction `iss >> itemId` into an `int` from a fresh `std::istringstream` over the
text (C++11 `num_get`): whitespace is skipped, an optional sign and the digits that follow
are read, a value out of range is stored as `INT_MAX` or `INT_MIN`, and 0 is stored when no
digit could be read. -/
def extractInt (s : Text) : Int :=
  match skipWhitespace s with
  | [] => 0
  | c :: rest =>
    if c = '-' then max INT_MIN (-(readDigits rest 0 : Int))
    else if c = '+' then min INT_MAX (readDigits rest 0 : Int)
    else min INT_MAX (readDigits (c :: rest) 0 : Int)

/-- The decimal text of an integer, as `operator<<` prints it and as a client types it:
a minus sign for a negative number, then the digits without leading zeros. -/
def decimalText : Int → Text
  | Int.ofNat n => Nat.toDigits 10 n
  | Int.negSucc n => '-' :: Nat.toDigits 10 (n + 1)

/-- The line-feed character. -/
def newline : Char := Char.ofNat 10

/-- Modelled from the spec: `Position::toString` (position.h is missing, and the spec gives
no format): the three coordinates in decimal between parentheses. -/
def Position.toString (p : Position) : Text :=
  "(".toList ++ decimalText p.x ++ ", ".toList ++ decimalText p.y ++ ", ".toList ++
    decimalText p.z ++ ")".toList

/-- The text the `debug` and `debugf` commands build in their `std::ostringstream`. -/
def debugText (position : Position) (tile : Tile) : Text :=
  "Position: ".toList ++ position.toString ++ [newline] ++
    (tile.items.map fun item =>
      "Item: ".toList ++ decimalText item.itemId ++ " (".toList ++ item.name ++
        ")".toList ++ [newline]).flatten ++
    (tile.creatureIds.map fun creatureId =>
      "Creature: ".toList ++ decimalText creatureId ++ [newline]).flatten

/-- The first lines of the command branch of `playerSay`: everything after the `/` is
`fullCommand`, which is cut at `fullCommand.find_first_of(' ')` into `command` and
`option` (the pair returned). -/
def splitCommand (message : Text) : Text × Text :=
  let fullCommand := substr message 1 none
  match find_first_of fullCommand ' ' with
  | none => (fullCommand, [])
  | some space => (substr fullCommand 0 (some space), substr fullCommand (space + 1) none)

namespace GameEngine

/-- Modelled from the spec: `getPlayer(creatureId)` (declared in gameengine.h, which is
missing): the player stored for the id in `players_`; `none`, a fault, for an unknown id. -/
def getPlayer (e : GameEngine) (creatureId : CreatureId) : Option Player :=
  e.players_ creatureId

/-- Modelled from the spec: `getPlayerCtrl(creatureId)` (declared in gameengine.h, which is
missing): the session state stored for the id in `playerCtrls_`; `none`, a fault, for an
unknown id. -/
def getPlayerCtrl (e : GameEngine) (creatureId : CreatureId) : Option PlayerCtrl :=
  e.playerCtrls_ creatureId

/-- Writes back the controller reached through the reference `getPlayerCtrl(creatureId)`. -/
def setPlayerCtrl (e : GameEngine) (creatureId : CreatureId) (c : PlayerCtrl) : GameEngine :=
  { e with playerCtrls_ := Function.update e.playerCtrls_ creatureId (some c) }

/-- Writes back the player reached through the reference `getPlayer(creatureId)`. -/
def setPlayer (e : GameEngine) (creatureId : CreatureId) (p : Player) : GameEngine :=
  { e with players_ := Function.update e.players_ creatureId (some p) }

/-- Modelled from the spec: `taskQueue_.addTask(task, expire)` (the queue implementation is
missing): one more pending task, not to run before `expire`. -/
def addTask (e : GameEngine) (task : QueuedTask) (expire : ptime) : GameEngine :=
  { e with taskQueue_ := e.taskQueue_ ++ [{ task := task, notBefore := expire }] }

/-- The call `getPlayerCtrl(creatureId).sendCancel(message)`. -/
def sendCancel (e : GameEngine) (creatureId : CreatureId) (message : Text) :
    Option GameEngine := do
  let playerCtrl ← e.getPlayerCtrl creatureId
  pure (e.setPlayerCtrl creatureId (playerCtrl.sendCancel message))

/-- The call `getPlayerCtrl(creatureId).sendTextMessage(message)`. -/
def sendTextMessage (e : GameEngine) (creatureId : CreatureId) (message : Text) :
    Option GameEngine := do
  let playerCtrl ← e.getPlayerCtrl creatureId
  pure (e.setPlayerCtrl creatureId (playerCtrl.sendTextMessage message))

/-! ## Lifecycle -/

/-- The engine as the constructor leaves it: `state_(INITIALIZED)`, the world as
the factory returned it, no players, no pending task. -/
def create (world : Option World) : GameEngine :=
  { state_ := State.INITIALIZED
    world_ := world
    players_ := fun _ => none
    playerCtrls_ := fun _ => none
    taskQueue_ := [] }

/-- The function `GameEngine::start()`: the returned flag and the engine afterwards. -/
def start (e : GameEngine) : Bool × GameEngine :=
  if e.state_ = State.RUNNING then
    (false, e)
  else if e.world_.isNone then
    (false, e)
  else
    (true, { e with state_ := State.RUNNING })

/-- The function `GameEngine::stop()`: the returned flag and the engine afterwards. -/
def stop (e : GameEngine) : Bool × GameEngine :=
  if e.state_ = State.RUNNING then
    (true, { e with state_ := State.CLOSING })
  else
    (false, e)

/-- The function `GameEngine::onTask(task)`; the task is a procedure on the engine.  The
`default:` label takes INITIALIZED, the one state without a label of its own. -/
def onTask (e : GameEngine) (task : GameEngine → Option GameEngine) : Option GameEngine :=
  match e.state_ with
  | State.RUNNING => task e
  | State.CLOSING => some { e with state_ := State.CLOSED }
  | State.CLOSED => some e
  | State.INITIALIZED => some e

/-! ## Movement -/

/-- The body of the `creatureMoveFunc` lambda of `playerMove`. -/
def creatureMoveFunc (e : GameEngine) (creatureId : CreatureId) (direction : Direction) :
    Option GameEngine := do
  let world ← e.world_
  let rc := (world.creatureMove creatureId direction).1
  let e1 := { e with world_ := some (world.creatureMove creatureId direction).2 }
  if rc = ReturnCode.THERE_IS_NO_ROOM then
    e1.sendCancel creatureId "There is no room.".toList
  else
    pure e1

/-- The function `GameEngine::playerMove(creatureId, direction)`; `now` is the reading of
the clock the function takes. -/
def playerMove (e : GameEngine) (creatureId : CreatureId) (direction : Direction)
    (now : ptime) : Option GameEngine := do
  let playerCtrl ← e.getPlayerCtrl creatureId
  let nextWalkTime := playerCtrl.getNextWalkTime
  if nextWalkTime ≤ now then
    let world ← e.world_
    let rc := (world.creatureMove creatureId direction).1
    let e1 := { e with world_ := some (world.creatureMove creatureId direction).2 }
    if rc = ReturnCode.THERE_IS_NO_ROOM then
      e1.sendCancel creatureId "There is no room.".toList
    else
      pure e1
  else
    pure (e.addTask (QueuedTask.creatureMoveFunc creatureId direction) nextWalkTime)

/-- The function `GameEngine::playerMovePath(creatureId, path)`. -/
def playerMovePath (e : GameEngine) (creatureId : CreatureId) (path : List Direction) :
    Option GameEngine := do
  let playerCtrl ← e.getPlayerCtrl creatureId
  let playerCtrl1 := playerCtrl.queueMoves path
  let e1 := e.setPlayerCtrl creatureId playerCtrl1
  pure (e1.addTask (QueuedTask.playerMovePathStep creatureId) playerCtrl1.getNextWalkTime)

/-- The function `GameEngine::playerMovePathStep(creatureId)`. -/
def playerMovePathStep (e : GameEngine) (creatureId : CreatureId) : Option GameEngine :=
  if (e.players_ creatureId).isNone then
    some e
  else do
    let playerCtrl ← e.getPlayerCtrl creatureId
    let e1 ←
      if playerCtrl.hasQueuedMove then do
        let next ← playerCtrl.getNextQueuedMove
        let world ← e.world_
        pure { (e.setPlayerCtrl creatureId next.2) with
          world_ := some (world.creatureMove creatureId next.1).2 }
      else
        pure e
    let playerCtrl1 ← e1.getPlayerCtrl creatureId
    if playerCtrl1.hasQueuedMove then
      pure (e1.addTask (QueuedTask.playerMovePathStep creatureId) playerCtrl1.getNextWalkTime)
    else
      pure e1

/-- The function `GameEngine::playerCancelMove(creatureId)`. -/
def playerCancelMove (e : GameEngine) (creatureId : CreatureId) : Option GameEngine := do
  let playerCtrl ← e.getPlayerCtrl creatureId
  if playerCtrl.hasQueuedMove then
    pure (e.setPlayerCtrl creatureId playerCtrl.cancelMove)
  else
    pure e

/-! ## Chat and chat commands -/

/-- The function `GameEngine::playerSay(creatureId, type, message, receiver, channelId)`.
Inside the `debug`/`debugf` branch the inner test `command == "debug"` leaves `debugf`
for its `else if`. -/
def playerSay (e : GameEngine) (creatureId : CreatureId) (type : Nat) (message : Text)
    (receiver : Text) (channelId : Nat) : Option GameEngine :=
  if 0 < message.length ∧ message.head? = some '/' then
    let command := (splitCommand message).1
    let option := (splitCommand message).2
    if command = "debug".toList ∨ command = "debugf".toList then do
      let world ← e.world_
      let located ←
        if command = "debug".toList then
          pure (world.getCreaturePosition creatureId)
        else do
          let player ← e.getPlayer creatureId
          pure (((world.getCreaturePosition creatureId).1.addDirection player.direction),
            (world.getCreaturePosition creatureId).2)
      let position := located.1
      let tile := (located.2.getTile position).1
      let e1 := { e with world_ := some (located.2.getTile position).2 }
      e1.sendTextMessage creatureId (debugText position tile)
    else if command = "put".toList then
      let itemId := extractInt option
      if itemId < 100 ∨ itemId > 2381 then
        e.sendTextMessage creatureId "Invalid itemId".toList
      else do
        let player ← e.getPlayer creatureId
        let world ← e.world_
        let position := (world.getCreaturePosition creatureId).1.addDirection player.direction
        pure { e with
          world_ := some ((world.getCreaturePosition creatureId).2.addItem itemId position) }
    else
      e.sendTextMessage creatureId "Invalid command".toList
  else do
    let world ← e.world_
    pure { e with world_ := some (world.creatureSay creatureId message) }

/-! ## Moving an item from tile to tile -/

/-- The function `GameEngine::playerMoveItemFromPosToPos`. -/
def playerMoveItemFromPosToPos (e : GameEngine) (creatureId : CreatureId)
    (fromPosition : Position) (fromStackPos itemId count : Int) (toPosition : Position) :
    Option GameEngine := do
  let world ← e.world_
  let moved := world.moveItem creatureId fromPosition fromStackPos itemId count toPosition
  let e1 := { e with world_ := some moved.2 }
  match moved.1 with
  | ReturnCode.OK => pure e1
  | ReturnCode.CANNOT_MOVE_THAT_OBJECT =>
    e1.sendCancel creatureId "You cannot move that object.".toList
  | ReturnCode.CANNOT_REACH_THAT_OBJECT =>
    e1.sendCancel creatureId "You are too far away.".toList
  | ReturnCode.THERE_IS_NO_ROOM =>
    e1.sendCancel creatureId "There is no room.".toList
  | ReturnCode.OTHER _ => pure e1

/-! ## Moving an item between a tile and the inventory -/

/-- The function `GameEngine::playerMoveItemFromPosToInv`. -/
def playerMoveItemFromPosToInv (e : GameEngine) (creatureId : CreatureId)
    (fromPosition : Position) (fromStackPos itemId count toInventoryId : Int) :
    Option GameEngine := do
  let player ← e.getPlayer creatureId
  let playerCtrl ← e.getPlayerCtrl creatureId
  let world ← e.world_
  let reach := world.creatureCanReach creatureId fromPosition
  if reach.1 = false then
    pure (({ e with world_ := some reach.2 } : GameEngine).setPlayerCtrl creatureId
      (playerCtrl.sendCancel "You are too far away.".toList))
  else
    let tile := reach.2.getTile fromPosition
    let item := tile.1.getItem fromStackPos
    if item.isValid = false ∨ item.itemId ≠ itemId then
      pure { e with world_ := some tile.2 }
    else if player.equipment.canAddItem item toInventoryId = false then
      pure (({ e with world_ := some tile.2 } : GameEngine).setPlayerCtrl creatureId
        (playerCtrl.sendCancel "You cannot equip that object.".toList))
    else
      let removed := tile.2.removeItem itemId count fromPosition fromStackPos
      if removed.1 ≠ ReturnCode.OK then
        pure { e with world_ := some removed.2 }
      else
        let added := player.equipment.addItem item toInventoryId
        pure ((({ e with world_ := some removed.2 } : GameEngine).setPlayer creatureId
          { player with equipment := added.2 }).setPlayerCtrl creatureId
            (playerCtrl.onEquipmentUpdated toInventoryId))

/-- The function `GameEngine::playerMoveItemFromInvToPos`. -/
def playerMoveItemFromInvToPos (e : GameEngine) (creatureId : CreatureId)
    (fromInventoryId itemId count : Int) (toPosition : Position) : Option GameEngine := do
  let player ← e.getPlayer creatureId
  let playerCtrl ← e.getPlayerCtrl creatureId
  let item := player.equipment.getItem fromInventoryId
  if item.isValid = false ∨ item.itemId ≠ itemId then
    pure e
  else
    let world ← e.world_
    let throw := world.creatureCanThrowTo creatureId toPosition
    if throw.1 = false then
      pure (({ e with world_ := some throw.2 } : GameEngine).setPlayerCtrl creatureId
        (playerCtrl.sendCancel "There is no room.".toList))
    else
      let removed := player.equipment.removeItem item fromInventoryId
      if removed.1 = false then
        pure (({ e with world_ := some throw.2 } : GameEngine).setPlayer creatureId
          { player with equipment := removed.2 })
      else
        let added := throw.2.addItemObject item toPosition
        pure ((({ e with world_ := some added.2 } : GameEngine).setPlayer creatureId
          { player with equipment := removed.2 }).setPlayerCtrl creatureId
            (playerCtrl.onEquipmentUpdated fromInventoryId))

/-- The function `GameEngine::playerMoveItemFromInvToInv`. -/
def playerMoveItemFromInvToInv (e : GameEngine) (creatureId : CreatureId)
    (fromInventoryId itemId count toInventoryId : Int) : Option GameEngine := do
  let player ← e.getPlayer creatureId
  let playerCtrl ← e.getPlayerCtrl creatureId
  let item := player.equipment.getItem fromInventoryId
  if item.isValid = false ∨ item.itemId ≠ itemId then
    pure e
  else if player.equipment.canAddItem item toInventoryId = false then
    pure (e.setPlayerCtrl creatureId
      (playerCtrl.sendCancel "You cannot equip that object.".toList))
  else
    let removed := player.equipment.removeItem item fromInventoryId
    if removed.1 = false then
      pure (e.setPlayer creatureId { player with equipment := removed.2 })
    else
      let added := removed.2.addItem item toInventoryId
      pure ((e.setPlayer creatureId { player with equipment := added.2 }).setPlayerCtrl
        creatureId
        ((playerCtrl.onEquipmentUpdated fromInventoryId).onEquipmentUpdated toInventoryId))

end GameEngine

/-- Running a queued closure on the engine. -/
def QueuedTask.run (t : QueuedTask) (e : GameEngine) : Option GameEngine :=
  match t with
  | QueuedTask.creatureMoveFunc creatureId direction => e.creatureMoveFunc creatureId direction
  | QueuedTask.playerMovePathStep creatureId => e.playerMovePathStep creatureId

/-- Modelled from the spec: the pending task the queue runs first (the queue's
implementation is missing): tasks run in non-decreasing `notBefore` order, ties in the
order they were added. -/
def TaskQueue.earliest : List ScheduledTask → Option ScheduledTask
  | [] => none
  | t :: ts =>
    match TaskQueue.earliest ts with
    | none => some t
    | some u => if u.notBefore < t.notBefore then some u else some t

/-- Modelled from the spec: the queue's timer fires: the first pending task is destroyed on
execution, that is taken off the queue, and handed to `onTask`.  `none` when no task is
pending or the task faults. -/
def GameEngine.runNextTask (e : GameEngine) : Option GameEngine :=
  match TaskQueue.earliest e.taskQueue_ with
  | none => none
  | some t => ({ e with taskQueue_ := e.taskQueue_.erase t } : GameEngine).onTask t.task.run

/-- Running the pending tasks one after the other until none is pending: the number of
tasks run and the engine at the end.  `none` when a task faults or when more than `fuel`
tasks would have to run. -/
def GameEngine.runTasks : Nat → GameEngine → Option (Nat × GameEngine)
  | 0, e => if e.taskQueue_ = [] then some (0, e) else none
  | fuel + 1, e =>
    if e.taskQueue_ = [] then some (0, e)
    else do
      let e1 ← e.runNextTask
      let r ← GameEngine.runTasks fuel e1
      pure (r.1 + 1, r.2)

/-- A call on the engine's lifecycle interface; a task is one the engine itself queued. -/
inductive Call where
  | start
  | stop
  | onTask (task : QueuedTask)
  deriving DecidableEq, Repr

/-- The engine after one lifecycle call; `none` when the task faults. -/
def GameEngine.applyCall (e : GameEngine) : Call → Option GameEngine
  | Call.start => some e.start.2
  | Call.stop => some e.stop.2
  | Call.onTask task => e.onTask task.run

/-- The lifecycle states the engine passes through under a sequence of calls, the state
before the first call included; the sequence ends at a call that faults. -/
def GameEngine.lifecycleTrace (e : GameEngine) : List Call → List State
  | [] => [e.state_]
  | c :: cs =>
    e.state_ :: (match e.applyCall c with
      | some e1 => GameEngine.lifecycleTrace e1 cs
      | none => [])

/-- No `start()` of the sequence is called while the state is CLOSING or CLOSED. -/
def GameEngine.startsBeforeStop (e : GameEngine) : List Call → Prop
  | [] => True
  | c :: cs =>
    (c = Call.start → e.state_ = State.INITIALIZED ∨ e.state_ = State.RUNNING) ∧
    (match e.applyCall c with
      | some e1 => GameEngine.startsBeforeStop e1 cs
      | none => True)

/-! ## IncomingPacket -/

/-- The condition a failed read raises. -/
inductive PacketError where
  | Underflow
  deriving DecidableEq, Repr

/-- The members of `IncomingPacket`: the bytes of the borrowed buffer, `length_` and
`position_` (both `std::size_t`, taken as 64 bits wide). -/
structure IncomingPacket where
  buffer_ : List Nat
  length_ : Nat
  position_ : Nat
  deriving DecidableEq, Repr

namespace IncomingPacket

/-- The number of values of `std::size_t`. -/
def SIZE_MODULUS : Nat := 2 ^ 64

/-- Modelled from the spec: the constructor `IncomingPacket(buffer, length)` (its body is
missing): a read-only view of the buffer with the position at 0. -/
def create (buffer : List Nat) : IncomingPacket :=
  { buffer_ := buffer, length_ := buffer.length, position_ := 0 }

/-- The inline query `getLength()`. -/
def getLength (p : IncomingPacket) : Nat := p.length_

/-- The inline query `isEmpty()`: `position_ >= length_`. -/
def isEmpty (p : IncomingPacket) : Bool := decide (p.position_ ≥ p.length_)

/-- The inline query `bytesLeft()`: `length_ - position_` in `std::size_t` arithmetic. -/
def bytesLeft (p : IncomingPacket) : Nat :=
  (p.length_ + SIZE_MODULUS - p.position_) % SIZE_MODULUS

/-- Modelled from the spec: the bytes a read of `n` bytes covers, "every consuming read
first checks bytesRemaining >= requested; on failure it fails with an Underflow condition
and must not advance position or return partial data".  The result of the read and the
packet afterwards. -/
def take (p : IncomingPacket) (n : Nat) : Except PacketError (List Nat) × IncomingPacket :=
  if p.bytesLeft < n then
    (Except.error PacketError.Underflow, p)
  else
    (Except.ok ((p.buffer_.drop p.position_).take n), { p with position_ := p.position_ + n })

/-- The value of a little-endian byte sequence. -/
def littleEndian : List Nat → Nat
  | [] => 0
  | b :: bs => b + 256 * littleEndian bs

/-- Modelled from the spec: `getBytes(numBytes)`, a raw byte range. -/
def getBytes (p : IncomingPacket) (numBytes : Nat) :
    Except PacketError (List Nat) × IncomingPacket :=
  p.take numBytes

/-- Modelled from the spec: `getU8()`, one byte. -/
def getU8 (p : IncomingPacket) : Except PacketError Nat × IncomingPacket :=
  ((p.take 1).1.map littleEndian, (p.take 1).2)

/-- Modelled from the spec: `getU16()`, two bytes, little-endian. -/
def getU16 (p : IncomingPacket) : Except PacketError Nat × IncomingPacket :=
  ((p.take 2).1.map littleEndian, (p.take 2).2)

/-- Modelled from the spec: `getU32()`, four bytes, little-endian. -/
def getU32 (p : IncomingPacket) : Except PacketError Nat × IncomingPacket :=
  ((p.take 4).1.map littleEndian, (p.take 4).2)

/-- Modelled from the spec: `getString()`, "strings are [2-byte length][raw bytes]": the
read asks for the two length bytes and for as many bytes as they announce, and takes
nothing when the packet has fewer left. -/
def getString (p : IncomingPacket) : Except PacketError (List Nat) × IncomingPacket :=
  if p.bytesLeft < 2 then
    (Except.error PacketError.Underflow, p)
  else if p.bytesLeft < 2 + littleEndian ((p.buffer_.drop p.position_).take 2) then
    (Except.error PacketError.Underflow, p)
  else
    (Except.ok ((p.buffer_.drop (p.position_ + 2)).take
        (littleEndian ((p.buffer_.drop p.position_).take 2))),
      { p with
        position_ := p.position_ + 2 + littleEndian ((p.buffer_.drop p.position_).take 2) })

end IncomingPacket

/-- One of the consuming reads of `IncomingPacket`. -/
inductive PacketRead where
  | getU8
  | getU16
  | getU32
  | getString
  | getBytes (numBytes : Nat)
  deriving DecidableEq, Repr

/-- The packet after a read, whatever the read returned. -/
def PacketRead.after (r : PacketRead) (p : IncomingPacket) : IncomingPacket :=
  match r with
  | PacketRead.getU8 => p.getU8.2
  | PacketRead.getU16 => p.getU16.2
  | PacketRead.getU32 => p.getU32.2
  | PacketRead.getString => p.getString.2
  | PacketRead.getBytes n => (p.getBytes n).2

/-- Whether the result of a read is the `Underflow` failure, which carries no data. -/
def PacketError.isUnderflow {α : Type} : Except PacketError α → Bool
  | Except.error PacketError.Underflow => true
  | Except.ok _ => false

/-- Whether a read failed with `Underflow`. -/
def PacketRead.underflows (r : PacketRead) (p : IncomingPacket) : Bool :=
  match r with
  | PacketRead.getU8 => PacketError.isUnderflow p.getU8.1
  | PacketRead.getU16 => PacketError.isUnderflow p.getU16.1
  | PacketRead.getU32 => PacketError.isUnderflow p.getU32.1
  | PacketRead.getString => PacketError.isUnderflow p.getString.1
  | PacketRead.getBytes n => PacketError.isUnderflow (p.getBytes n).1

/-- The number of bytes a read asks for: the width of the integer, the byte count, or,
for a string, the two length bytes and, once those can be read, the bytes they announce. -/
def PacketRead.requested (r : PacketRead) (p : IncomingPacket) : Nat :=
  match r with
  | PacketRead.getU8 => 1
  | PacketRead.getU16 => 2
  | PacketRead.getU32 => 4
  | PacketRead.getString =>
    if p.bytesLeft < 2 then 2
    else 2 + IncomingPacket.littleEndian ((p.buffer_.drop p.position_).take 2)
  | PacketRead.getBytes n => n

/-- The packet after a sequence of reads. -/
def PacketRead.afterAll (reads : List PacketRead) (p : IncomingPacket) : IncomingPacket :=
  reads.foldl (fun q r => r.after q) p

/-! ## Observations used in the statements -/

/-- The calls made on the engine's world so far (none on a null world). -/
def GameEngine.worldCalls (e : GameEngine) : List WorldCall :=
  match e.world_ with
  | some world => world.calls
  | none => []

/-- The messages sent so far to the player with the given id (none for an unknown id). -/
def GameEngine.sentTo (e : GameEngine) (creatureId : CreatureId) : List PlayerMessage :=
  match e.playerCtrls_ creatureId with
  | some playerCtrl => playerCtrl.sent
  | none => []

/-- Whether the world carried out a change asked of it after the calls `before`.  A
`removeItem`, an `addItem(item, position)`, a `moveItem` and a `creatureMove` are carried
out exactly when the world answers them with OK; every other mutating call
(`addItem(itemId, position)`, `creatureSay`, `creatureTurn`), whose result the engine
never sees, counts as carried out; a query changes nothing. -/
def World.accepted (w : World) (before : List WorldCall) : WorldCall → Bool
  | WorldCall.removeItem itemId count position stackPos =>
    decide (w.removeItemResult before itemId count position stackPos = ReturnCode.OK)
  | WorldCall.addItemObject item position =>
    decide (w.addItemResult before item position = ReturnCode.OK)
  | WorldCall.moveItem creatureId fromPosition fromStackPos itemId count toPosition =>
    decide (w.moveItemResult before creatureId fromPosition fromStackPos itemId count
      toPosition = ReturnCode.OK)
  | WorldCall.creatureMove creatureId direction =>
    decide (w.creatureMoveResult before creatureId direction = ReturnCode.OK)
  | c => c.isMutating

/-- The changes the world carried out among `calls`, made after the calls `before`. -/
def World.transfersFrom (w : World) : List WorldCall → List WorldCall → List WorldCall
  | _, [] => []
  | before, c :: cs =>
    (if w.accepted before c then [c] else []) ++ w.transfersFrom (before ++ [c]) cs

/-- The changes the world carried out so far, the items taken from and given to its tiles
among them: what the tiles hold differs from what they held at the start by these
changes only. -/
def World.itemTransfers (w : World) : List WorldCall :=
  w.transfersFrom [] w.calls

/-- Whether the equipment carried out a call made after the calls `before`: an `addItem`
or a `removeItem` it answered with true. -/
def Equipment.accepted (q : Equipment) (before : List EquipmentCall) : EquipmentCall → Bool
  | EquipmentCall.addItem item inventoryIndex => q.addItemResult before item inventoryIndex
  | EquipmentCall.removeItem item inventoryIndex => q.removeItemResult before item inventoryIndex

/-- The calls the equipment carried out among `calls`, made after the calls `before`. -/
def Equipment.transfersFrom (q : Equipment) :
    List EquipmentCall → List EquipmentCall → List EquipmentCall
  | _, [] => []
  | before, c :: cs =>
    (if q.accepted before c then [c] else []) ++ q.transfersFrom (before ++ [c]) cs

/-- The items taken from and given to the equipment so far: what its slots hold differs
from what they held at the start by exactly these movements. -/
def Equipment.itemTransfers (q : Equipment) : List EquipmentCall :=
  q.transfersFrom [] q.calls

/-- The `addItem` and `removeItem` calls made so far on the equipment of the player with
the given id (none for an unknown id). -/
def GameEngine.equipmentCalls (e : GameEngine) (creatureId : CreatureId) :
    List EquipmentCall :=
  match e.players_ creatureId with
  | some player => player.equipment.calls
  | none => []

/-- The changes the engine's world carried out so far. -/
def GameEngine.worldTransfers (e : GameEngine) : List WorldCall :=
  match e.world_ with
  | some world => world.itemTransfers
  | none => []

/-- The item movements the equipment of the player with the given id carried out so far. -/
def GameEngine.equipmentTransfers (e : GameEngine) (creatureId : CreatureId) :
    List EquipmentCall :=
  match e.players_ creatureId with
  | some player => player.equipment.itemTransfers
  | none => []

/-- The lifecycle states of a trace never move backwards in the order INITIALIZED,
RUNNING, CLOSING, CLOSED: every state is at or after all states before it. -/
def State.Monotonic (trace : List State) : Prop :=
  trace.Pairwise (fun a b => a.rank ≤ b.rank)

/-! ## Sample data -/

/-- A valid item, a torch with item id 2222. -/
def sampleItem : Item := { itemId := 2222, name := "torch".toList, valid := true }

/-- An equipment on which no call was made yet: slot 5 holds `sampleItem`, every other
slot is empty, and every item is accepted, added and given up. -/
def sampleEquipment : Equipment :=
  { calls := []
    itemAt := fun _ i => if i = 5 then sampleItem else Item.invalid
    canAddItemResult := fun _ _ _ => true
    addItemResult := fun _ _ _ => true
    removeItemResult := fun _ _ _ => true }

/-- The player Alice, facing east, with `sampleEquipment`. -/
def samplePlayer : Player :=
  { name := "Alice".toList, direction := Direction.EAST, equipment := sampleEquipment }

/-- A world with no call made yet in which every creature stands at `(100,100,7)`, every
move succeeds and every tile is empty. -/
def sampleWorld : World :=
  { calls := []
    creatureMoveResult := fun _ _ _ => ReturnCode.OK
    moveItemResult := fun _ _ _ _ _ _ _ => ReturnCode.OK
    creaturePosition := fun _ _ => { x := 100, y := 100, z := 7 }
    tileAt := fun _ _ => { items := [], creatureIds := [] }
    canReachResult := fun _ _ _ => true
    canThrowToResult := fun _ _ _ => true
    removeItemResult := fun _ _ _ _ _ => ReturnCode.OK
    addItemResult := fun _ _ _ => ReturnCode.OK }

/-- A world as `sampleWorld` in which `moveItem` answers with a result code that is none
of the four gameengine.cc names. -/
def otherCodeWorld : World :=
  { sampleWorld with moveItemResult := fun _ _ _ _ _ _ _ => ReturnCode.OTHER 0 }

/-- A world as `sampleWorld` in which every move of a creature or an item is refused
with THERE_IS_NO_ROOM. -/
def noRoomWorld : World :=
  { sampleWorld with
    creatureMoveResult := fun _ _ _ => ReturnCode.THERE_IS_NO_ROOM
    moveItemResult := fun _ _ _ _ _ _ _ => ReturnCode.THERE_IS_NO_ROOM }

/-- A world as `sampleWorld` in which every tile holds `sampleItem` at stack position 0. -/
def itemWorld : World :=
  { sampleWorld with tileAt := fun _ _ => { items := [sampleItem], creatureIds := [] } }

/-- A world as `sampleWorld` that lets every creature throw to every position but answers
`addItem(item, position)` with THERE_IS_NO_ROOM. -/
def fullTileWorld : World :=
  { sampleWorld with addItemResult := fun _ _ _ => ReturnCode.THERE_IS_NO_ROOM }

/-- A world as `sampleWorld` in which no creature can reach or throw to any position. -/
def blockedWorld : World :=
  { sampleWorld with
    canReachResult := fun _ _ _ => false
    canThrowToResult := fun _ _ _ => false }

/-- A running engine over `sampleWorld` with one player, id 1, facing east, allowed to
walk from time 500 on, with no pending move and no message received. -/
def sampleEngine : GameEngine :=
  { state_ := State.RUNNING
    world_ := some sampleWorld
    players_ := fun i => if i = 1 then some samplePlayer else none
    playerCtrls_ := fun i => if i = 1 then some { nextWalkTime := 500, queuedMoves := [], sent := [] } else none
    taskQueue_ := [] }


/-! ## Lifecycle: `start`, `stop`, `onTask` -/

/-- C1: `start()` returns false and leaves the engine as it is when the state is RUNNING or
the world pointer is null; in every other case it returns true and the state afterwards
is RUNNING (nothing else changes). -/
theorem GameEngine.start_spec (e : GameEngine) :
    ((e.state_ = State.RUNNING ∨ e.world_ = none) → e.start = (false, e)) ∧
    (¬ (e.state_ = State.RUNNING ∨ e.world_ = none) →
      e.start = (true, { e with state_ := State.RUNNING })) := by
  constructor
  · rintro (h | h)
    · simp [GameEngine.start, h]
    · simp [GameEngine.start, h]
  · intro h
    have h1 : e.state_ ≠ State.RUNNING := fun hs => h (Or.inl hs)
    have h2 : e.world_.isNone = false := by
      cases hw : e.world_ with
      | none => exact absurd (Or.inr hw) h
      | some w => rfl
    simp [GameEngine.start, h1, h2]

/-- C1 at concrete engines: a running engine and an engine without world refuse to start,
a freshly created engine with a world starts. -/
theorem GameEngine.start_spec_witness :
    (sampleEngine.state_ = State.RUNNING ∨ sampleEngine.world_ = none) ∧
    sampleEngine.start = (false, sampleEngine) ∧
    ((GameEngine.create none).state_ = State.RUNNING ∨ (GameEngine.create none).world_ = none) ∧
    (GameEngine.create none).start = (false, GameEngine.create none) ∧
    ¬ ((GameEngine.create (some sampleWorld)).state_ = State.RUNNING ∨
        (GameEngine.create (some sampleWorld)).world_ = none) ∧
    (GameEngine.create (some sampleWorld)).start =
      (true, { GameEngine.create (some sampleWorld) with state_ := State.RUNNING }) :=
  have h3 : ¬ ((GameEngine.create (some sampleWorld)).state_ = State.RUNNING ∨
      (GameEngine.create (some sampleWorld)).world_ = none) := by
    simp [GameEngine.create]
  ⟨Or.inl rfl, (GameEngine.start_spec sampleEngine).1 (Or.inl rfl),
    Or.inr rfl, (GameEngine.start_spec (GameEngine.create none)).1 (Or.inr rfl),
    h3, (GameEngine.start_spec (GameEngine.create (some sampleWorld))).2 h3⟩

/-- C2: `stop()` returns true exactly when the state is RUNNING, and the state afterwards
is then CLOSING; from INITIALIZED, CLOSING and CLOSED it returns false and leaves the
engine as it is. -/
theorem GameEngine.stop_spec (e : GameEngine) :
    (e.stop.1 = true ↔ e.state_ = State.RUNNING) ∧
    (e.state_ = State.RUNNING → e.stop = (true, { e with state_ := State.CLOSING })) ∧
    (e.state_ ≠ State.RUNNING → e.stop = (false, e)) := by
  by_cases h : e.state_ = State.RUNNING
  · simp [GameEngine.stop, h]
  · simp [GameEngine.stop, h]

/-- C2 at concrete engines: the running sample engine stops, a freshly created one
does not. -/
theorem GameEngine.stop_spec_witness :
    sampleEngine.state_ = State.RUNNING ∧
    sampleEngine.stop = (true, { sampleEngine with state_ := State.CLOSING }) ∧
    (GameEngine.create none).state_ ≠ State.RUNNING ∧
    (GameEngine.create none).stop = (false, GameEngine.create none) :=
  ⟨rfl, (GameEngine.stop_spec sampleEngine).2.1 rfl,
    by simp [GameEngine.create],
    (GameEngine.stop_spec (GameEngine.create none)).2.2 (by simp [GameEngine.create])⟩

/-- C3: in state RUNNING `onTask(task)` is one run of the task on the engine as found; in
state CLOSING the task is not run and the state becomes CLOSED; in state CLOSED the task
is not run and the engine stays as it is. -/
theorem GameEngine.onTask_spec (e : GameEngine) (task : GameEngine → Option GameEngine) :
    (e.state_ = State.RUNNING → e.onTask task = task e) ∧
    (e.state_ = State.CLOSING → e.onTask task = some { e with state_ := State.CLOSED }) ∧
    (e.state_ = State.CLOSED → e.onTask task = some e) := by
  refine ⟨fun h => ?_, fun h => ?_, fun h => ?_⟩ <;> simp [GameEngine.onTask, h]

/-- C3 at concrete engines, with the queued move of player 1 as the task: run once when
RUNNING (one `creatureMove` reaches the world), dropped when CLOSING or CLOSED. -/
theorem GameEngine.onTask_spec_witness :
    sampleEngine.state_ = State.RUNNING ∧
    (sampleEngine.onTask (QueuedTask.creatureMoveFunc 1 Direction.EAST).run).map
        GameEngine.worldCalls = some [WorldCall.creatureMove 1 Direction.EAST] ∧
    ({ sampleEngine with state_ := State.CLOSING } : GameEngine).state_ = State.CLOSING ∧
    (({ sampleEngine with state_ := State.CLOSING } : GameEngine).onTask
        (QueuedTask.creatureMoveFunc 1 Direction.EAST).run).map
      (fun e => (e.state_, e.worldCalls)) = some (State.CLOSED, []) ∧
    ({ sampleEngine with state_ := State.CLOSED } : GameEngine).state_ = State.CLOSED ∧
    (({ sampleEngine with state_ := State.CLOSED } : GameEngine).onTask
        (QueuedTask.creatureMoveFunc 1 Direction.EAST).run).map
      (fun e => (e.state_, e.worldCalls)) = some (State.CLOSED, []) := by
  refine ⟨rfl, ?_, rfl, ?_, rfl, ?_⟩
  · rw [(GameEngine.onTask_spec sampleEngine _).1 rfl]; decide
  · rw [(GameEngine.onTask_spec _ _).2.1 rfl]; decide
  · rw [(GameEngine.onTask_spec _ _).2.2 rfl]; decide


/-! ## Lifecycle: monotonicity -/

theorem State.rank_injective (a b : State) (h : a.rank = b.rank) : a = b := by
  cases a <;> cases b <;> simp [State.rank] at h <;> rfl

theorem GameEngine.sendCancel_state (e e1 : GameEngine) (creatureId : CreatureId) (m : Text)
    (h : e.sendCancel creatureId m = some e1) : e1.state_ = e.state_ := by
  unfold GameEngine.sendCancel at h
  cases hc : e.getPlayerCtrl creatureId with
  | none => simp [hc] at h
  | some c =>
    simp [hc, GameEngine.setPlayerCtrl] at h
    subst h
    rfl

theorem GameEngine.creatureMoveFunc_state (e e1 : GameEngine) (creatureId : CreatureId)
    (direction : Direction) (h : e.creatureMoveFunc creatureId direction = some e1) :
    e1.state_ = e.state_ := by
  unfold GameEngine.creatureMoveFunc at h
  cases hw : e.world_ with
  | none => simp [hw] at h
  | some w =>
    simp only [hw, Option.bind_eq_bind, Option.some_bind] at h
    split at h
    · exact (GameEngine.sendCancel_state _ _ _ _ h).trans rfl
    · simp at h
      subst h
      rfl

theorem GameEngine.playerMovePathStep_state (e e1 : GameEngine) (creatureId : CreatureId)
    (h : e.playerMovePathStep creatureId = some e1) : e1.state_ = e.state_ := by
  unfold GameEngine.playerMovePathStep at h
  split at h
  · simp at h
    subst h
    rfl
  · cases hc : e.getPlayerCtrl creatureId with
    | none => simp [hc] at h
    | some c =>
      simp only [hc, Option.bind_eq_bind, Option.some_bind] at h
      have key : ∀ e2 : GameEngine,
          (do
            let playerCtrl1 ← e2.getPlayerCtrl creatureId
            if playerCtrl1.hasQueuedMove then
              pure (e2.addTask (QueuedTask.playerMovePathStep creatureId)
                playerCtrl1.getNextWalkTime)
            else
              pure e2) = some e1 → e1.state_ = e2.state_ := by
        intro e2 h3
        cases hc2 : e2.getPlayerCtrl creatureId with
        | none => simp [hc2] at h3
        | some c2 =>
          simp only [hc2, Option.bind_eq_bind, Option.some_bind] at h3
          split at h3
          · simp [GameEngine.addTask] at h3
            subst h3
            rfl
          · simp at h3
            subst h3
            rfl
      split at h
      · cases hn : c.getNextQueuedMove with
        | none => simp [hn] at h
        | some next =>
          cases hw : e.world_ with
          | none => simp [hn, hw] at h
          | some w =>
            simp only [hn, hw, Option.bind_eq_bind, Option.some_bind, Option.pure_def] at h
            exact (key _ h).trans rfl
      · simp only [Option.pure_def, Option.bind_eq_bind, Option.some_bind] at h
        exact (key _ h).trans rfl

theorem QueuedTask.run_state (t : QueuedTask) (e e1 : GameEngine) (h : t.run e = some e1) :
    e1.state_ = e.state_ := by
  cases t with
  | creatureMoveFunc creatureId direction =>
    exact GameEngine.creatureMoveFunc_state e e1 creatureId direction h
  | playerMovePathStep creatureId =>
    exact GameEngine.playerMovePathStep_state e e1 creatureId h

theorem GameEngine.applyCall_rank (e e1 : GameEngine) (c : Call)
    (hs : c = Call.start → e.state_ = State.INITIALIZED ∨ e.state_ = State.RUNNING)
    (h : e.applyCall c = some e1) : e.state_.rank ≤ e1.state_.rank := by
  cases c with
  | start =>
    simp only [GameEngine.applyCall, GameEngine.start, Option.some.injEq] at h
    subst h
    rcases hs rfl with h0 | h0
    · split_ifs <;> simp [h0, State.rank]
    · simp [h0]
  | stop =>
    simp only [GameEngine.applyCall, GameEngine.stop, Option.some.injEq] at h
    subst h
    split_ifs with h0 <;> simp [h0, State.rank]
  | onTask t =>
    simp only [GameEngine.applyCall, GameEngine.onTask] at h
    split at h
    · rw [QueuedTask.run_state t e e1 h]
    · simp at h
      subst h
      simp_all [State.rank]
    · simp at h
      subst h
      exact le_refl _
    · simp at h
      subst h
      exact le_refl _

theorem GameEngine.lifecycleTrace_head (e : GameEngine) (calls : List Call) :
    (e.lifecycleTrace calls).head? = some e.state_ := by
  cases calls <;> rfl

theorem GameEngine.lifecycleTrace_chain (calls : List Call) :
    ∀ e : GameEngine, e.startsBeforeStop calls →
      List.Chain' (fun a b : State => a.rank ≤ b.rank) (e.lifecycleTrace calls) := by
  induction calls with
  | nil => intro e _; simp [GameEngine.lifecycleTrace]
  | cons c cs ih =>
    intro e h
    obtain ⟨h1, h2⟩ := h
    simp only [GameEngine.lifecycleTrace]
    cases hc : e.applyCall c with
    | none => simp
    | some e1 =>
      simp only [hc] at h2 ⊢
      rw [List.chain'_cons']
      refine ⟨?_, ih e1 h2⟩
      intro x hx
      rw [GameEngine.lifecycleTrace_head] at hx
      cases hx
      exact GameEngine.applyCall_rank e e1 c h1 hc

theorem State.monotonic_of_chain (tr : List State)
    (h : List.Chain' (fun a b : State => a.rank ≤ b.rank) tr) : State.Monotonic tr := by
  unfold State.Monotonic
  haveI : IsTrans State (fun a b : State => a.rank ≤ b.rank) :=
    ⟨fun _ _ _ hab hbc => le_trans hab hbc⟩
  exact List.chain'_iff_pairwise.mp h

theorem State.Monotonic.no_reentry (tr : List State) (h : State.Monotonic tr)
    (i j k : Nat) (s t : State) (hij : i ≤ j) (hjk : j ≤ k)
    (hi : tr[i]? = some s) (hj : tr[j]? = some t) (hk : tr[k]? = some s) :
    t = s := by
  unfold State.Monotonic at h
  have hle : ∀ a b : Nat, a ≤ b → ∀ x y : State, tr[a]? = some x → tr[b]? = some y →
      x.rank ≤ y.rank := by
    intro a b hab x y hx hy
    rcases Nat.lt_or_eq_of_le hab with hlt | heq
    · obtain ⟨ha, hxa⟩ := List.getElem?_eq_some.mp hx
      obtain ⟨hb, hyb⟩ := List.getElem?_eq_some.mp hy
      have := List.pairwise_iff_getElem.mp h a b ha hb hlt
      rw [hxa, hyb] at this
      exact this
    · subst heq
      rw [hx] at hy
      cases hy
      exact le_refl _
  exact State.rank_injective t s
    (le_antisymm (hle j k hjk t s hj hk) (hle i j hij s t hi hj))


/-- C4 as stated fails: on an engine whose world loaded, `start(); stop(); start()` takes the
state through INITIALIZED, RUNNING, CLOSING and back to RUNNING; the `stop()` in the middle
returned true, the second `start()` returned true, and the trace is not monotonic. -/
theorem GameEngine.lifecycle_reentry :
    (GameEngine.create (some sampleWorld)).lifecycleTrace [Call.start, Call.stop, Call.start] =
      [State.INITIALIZED, State.RUNNING, State.CLOSING, State.RUNNING] ∧
    (GameEngine.create (some sampleWorld)).start.2.stop.1 = true ∧
    (GameEngine.create (some sampleWorld)).start.2.stop.2.start.1 = true ∧
    ¬ State.Monotonic
      ((GameEngine.create (some sampleWorld)).lifecycleTrace [Call.start, Call.stop, Call.start]) := by
  have h : (GameEngine.create (some sampleWorld)).lifecycleTrace
      [Call.start, Call.stop, Call.start] =
      [State.INITIALIZED, State.RUNNING, State.CLOSING, State.RUNNING] := by decide
  refine ⟨h, by decide, by decide, ?_⟩
  rw [h]
  unfold State.Monotonic
  decide

/-- C4, amended: for every sequence of `start()`, `stop()` and `onTask()` calls in which
`start()` is called only while the state is INITIALIZED or RUNNING, the state only moves
forward in the order INITIALIZED, RUNNING, CLOSING, CLOSED, and a state that has been left
is never entered again; `start()` called in CLOSING or CLOSED on an engine with a world
returns true and enters RUNNING. -/
theorem GameEngine.lifecycle_monotonic (e : GameEngine) (calls : List Call)
    (h : e.startsBeforeStop calls) :
    State.Monotonic (e.lifecycleTrace calls) ∧
    (∀ (i j k : Nat) (s t : State), i ≤ j → j ≤ k →
      (e.lifecycleTrace calls)[i]? = some s → (e.lifecycleTrace calls)[j]? = some t →
      (e.lifecycleTrace calls)[k]? = some s → t = s) ∧
    (∀ e2 : GameEngine, e2.world_ ≠ none →
      (e2.state_ = State.CLOSING ∨ e2.state_ = State.CLOSED) →
      e2.start = (true, { e2 with state_ := State.RUNNING })) := by
  have hm : State.Monotonic (e.lifecycleTrace calls) :=
    State.monotonic_of_chain _ (GameEngine.lifecycleTrace_chain calls e h)
  refine ⟨hm, ?_, ?_⟩
  · intro i j k s t hij hjk hi hj hk
    exact State.Monotonic.no_reentry _ hm i j k s t hij hjk hi hj hk
  · intro e2 hw hs
    have h1 : e2.state_ ≠ State.RUNNING := by
      rcases hs with hs | hs <;> simp [hs]
    have h2 : e2.world_.isNone = false := by
      cases hw2 : e2.world_ with
      | none => exact absurd hw2 hw
      | some w => rfl
    simp [GameEngine.start, h1, h2]

/-- C4, amended, at a concrete run: start, a task, stop, two more tasks and a second stop
take a fresh engine through INITIALIZED, RUNNING, RUNNING, CLOSING, CLOSED, CLOSED,
CLOSED, a monotonic trace. -/
theorem GameEngine.lifecycle_monotonic_witness :
    (GameEngine.create (some sampleWorld)).startsBeforeStop
      [Call.start, Call.onTask (QueuedTask.creatureMoveFunc 1 Direction.EAST), Call.stop,
        Call.onTask (QueuedTask.playerMovePathStep 1),
        Call.onTask (QueuedTask.playerMovePathStep 1), Call.stop] ∧
    (GameEngine.create (some sampleWorld)).lifecycleTrace
      [Call.start, Call.onTask (QueuedTask.creatureMoveFunc 1 Direction.EAST), Call.stop,
        Call.onTask (QueuedTask.playerMovePathStep 1),
        Call.onTask (QueuedTask.playerMovePathStep 1), Call.stop] =
      [State.INITIALIZED, State.RUNNING, State.RUNNING, State.CLOSING, State.CLOSED,
        State.CLOSED, State.CLOSED] ∧
    State.Monotonic ((GameEngine.create (some sampleWorld)).lifecycleTrace
      [Call.start, Call.onTask (QueuedTask.creatureMoveFunc 1 Direction.EAST), Call.stop,
        Call.onTask (QueuedTask.playerMovePathStep 1),
        Call.onTask (QueuedTask.playerMovePathStep 1), Call.stop]) :=
  have hs : (GameEngine.create (some sampleWorld)).startsBeforeStop
      [Call.start, Call.onTask (QueuedTask.creatureMoveFunc 1 Direction.EAST), Call.stop,
        Call.onTask (QueuedTask.playerMovePathStep 1),
        Call.onTask (QueuedTask.playerMovePathStep 1), Call.stop] := by
    simp [GameEngine.startsBeforeStop, GameEngine.applyCall, GameEngine.create,
      GameEngine.start, GameEngine.stop, GameEngine.onTask, QueuedTask.run,
      GameEngine.creatureMoveFunc, GameEngine.playerMovePathStep, World.creatureMove,
      sampleWorld]
  ⟨hs, by decide, (GameEngine.lifecycle_monotonic _ _ hs).1⟩


/-! ## Direct moves -/

theorem GameEngine.creatureMoveFunc_once (e : GameEngine) (creatureId : CreatureId)
    (direction : Direction) (world : World) (playerCtrl : PlayerCtrl)
    (hw : e.world_ = some world) (hc : e.getPlayerCtrl creatureId = some playerCtrl) :
    ∃ e1, e.creatureMoveFunc creatureId direction = some e1 ∧
      e1.worldCalls = world.calls ++ [WorldCall.creatureMove creatureId direction] ∧
      e1.taskQueue_ = e.taskQueue_ := by
  unfold GameEngine.creatureMoveFunc
  simp only [hw, Option.bind_eq_bind, Option.some_bind]
  unfold GameEngine.getPlayerCtrl at hc
  split
  · simp [GameEngine.sendCancel, GameEngine.getPlayerCtrl, hc, GameEngine.setPlayerCtrl,
      GameEngine.worldCalls, World.creatureMove, World.record]
  · simp [GameEngine.worldCalls, World.creatureMove, World.record]

/-- C5: for an existing player, `playerMove` makes exactly one `creatureMove` attempt.  When
`nextWalkTime ≤ now` the one world call is made during the call and the task queue is left
alone; when `nextWalkTime > now` the call changes nothing but the task queue, which gets
exactly one task, due at `nextWalkTime`; and one run of that task, on any engine that still
has the world and the player, makes exactly the one `creatureMove(creatureId, direction)`
call and schedules nothing. -/
theorem GameEngine.playerMove_spec (e : GameEngine) (creatureId : CreatureId)
    (direction : Direction) (now : ptime) (world : World) (playerCtrl : PlayerCtrl)
    (hw : e.world_ = some world) (hc : e.getPlayerCtrl creatureId = some playerCtrl) :
    (playerCtrl.getNextWalkTime ≤ now →
      ∃ e1, e.playerMove creatureId direction now = some e1 ∧
        e1.worldCalls = world.calls ++ [WorldCall.creatureMove creatureId direction] ∧
        e1.taskQueue_ = e.taskQueue_) ∧
    (now < playerCtrl.getNextWalkTime →
      e.playerMove creatureId direction now =
        some { e with taskQueue_ := e.taskQueue_ ++
          [{ task := QueuedTask.creatureMoveFunc creatureId direction,
             notBefore := playerCtrl.getNextWalkTime }] }) ∧
    (∀ (e2 : GameEngine) (world2 : World) (playerCtrl2 : PlayerCtrl),
      e2.world_ = some world2 → e2.getPlayerCtrl creatureId = some playerCtrl2 →
      ∃ e3, (QueuedTask.creatureMoveFunc creatureId direction).run e2 = some e3 ∧
        e3.worldCalls = world2.calls ++ [WorldCall.creatureMove creatureId direction] ∧
        e3.taskQueue_ = e2.taskQueue_) := by
  refine ⟨fun h => ?_, fun h => ?_, fun e2 world2 playerCtrl2 hw2 hc2 => ?_⟩
  · unfold GameEngine.playerMove
    simp only [hc, hw, Option.bind_eq_bind, Option.some_bind, h, if_true]
    unfold GameEngine.getPlayerCtrl at hc
    split
    · simp [GameEngine.sendCancel, GameEngine.getPlayerCtrl, hc, GameEngine.setPlayerCtrl,
        GameEngine.worldCalls, World.creatureMove, World.record]
    · simp [GameEngine.worldCalls, World.creatureMove, World.record]
  · unfold GameEngine.playerMove
    have h2 : ¬ playerCtrl.getNextWalkTime ≤ now := not_le.mpr h
    simp [hc, h2, GameEngine.addTask]
  · exact GameEngine.creatureMoveFunc_once e2 creatureId direction world2 playerCtrl2 hw2 hc2

/-- C5 at the sample engine, whose player 1 may walk from time 500 on: a move asked at
time 500 reaches the world at once, a move asked at time 100 is queued for time 500 and
reaches the world when the queued task runs. -/
theorem GameEngine.playerMove_spec_witness :
    sampleEngine.world_ = some sampleWorld ∧
    sampleEngine.getPlayerCtrl 1 = some { nextWalkTime := 500, queuedMoves := [], sent := [] } ∧
    (∃ e1, sampleEngine.playerMove 1 Direction.EAST 500 = some e1 ∧
      e1.worldCalls = [WorldCall.creatureMove 1 Direction.EAST] ∧ e1.taskQueue_ = []) ∧
    sampleEngine.playerMove 1 Direction.EAST 100 =
      some { sampleEngine with taskQueue_ :=
        [{ task := QueuedTask.creatureMoveFunc 1 Direction.EAST, notBefore := 500 }] } ∧
    (∃ e3, (QueuedTask.creatureMoveFunc 1 Direction.EAST).run sampleEngine = some e3 ∧
      e3.worldCalls = [WorldCall.creatureMove 1 Direction.EAST] ∧ e3.taskQueue_ = []) :=
  ⟨rfl, rfl,
    (GameEngine.playerMove_spec sampleEngine 1 Direction.EAST 500 sampleWorld _ rfl rfl).1
      (by decide),
    (GameEngine.playerMove_spec sampleEngine 1 Direction.EAST 100 sampleWorld _ rfl rfl).2.1
      (by decide),
    (GameEngine.playerMove_spec sampleEngine 1 Direction.EAST 100 sampleWorld _ rfl rfl).2.2
      sampleEngine sampleWorld _ rfl rfl⟩


/-! ## Chat commands: splitting verb and argument -/

theorem find_first_of_eq_none (c : Char) (s : Text) (h : c ∉ s) : find_first_of s c = none := by
  induction s with
  | nil => rfl
  | cons x xs ih =>
    have hx : x ≠ c := fun hxc => h (by simp [hxc])
    have hxs : c ∉ xs := fun hm => h (List.mem_cons_of_mem _ hm)
    simp [find_first_of, hx, ih hxs]

theorem find_first_of_append (c : Char) (verb arg : Text) (h : c ∉ verb) :
    find_first_of (verb ++ c :: arg) c = some verb.length := by
  induction verb with
  | nil => simp [find_first_of]
  | cons x xs ih =>
    have hx : x ≠ c := fun hxc => h (by simp [hxc])
    have hxs : c ∉ xs := fun hm => h (List.mem_cons_of_mem _ hm)
    simp [find_first_of, hx, ih hxs]

theorem find_first_of_eq_some (c : Char) (s : Text) :
    ∀ i : Nat, find_first_of s c = some i → c ∉ s.take i ∧ s = s.take i ++ c :: s.drop (i + 1) := by
  induction s with
  | nil => intro i h; simp [find_first_of] at h
  | cons x xs ih =>
    intro i h
    by_cases hx : x = c
    · simp [find_first_of, hx] at h
      subst h
      simp [hx]
    · simp only [find_first_of, hx, if_false, Option.map_eq_some'] at h
      obtain ⟨j, hj, rfl⟩ := h
      obtain ⟨h1, h2⟩ := ih j hj
      constructor
      · simp only [List.take_succ_cons, List.mem_cons, not_or]
        exact ⟨fun hcx => hx hcx.symm, h1⟩
      · simp only [List.take_succ_cons, List.drop_succ_cons, List.cons_append]
        rw [← h2]

theorem find_first_of_mem (c : Char) (s : Text) (h : c ∈ s) :
    ∃ i, find_first_of s c = some i := by
  cases hf : find_first_of s c with
  | some i => exact ⟨i, rfl⟩
  | none =>
    exfalso
    induction s with
    | nil => simp at h
    | cons x xs ih =>
      by_cases hx : x = c
      · simp [find_first_of, hx] at hf
      · simp only [find_first_of, hx, if_false, Option.map_eq_none'] at hf
        rcases List.mem_cons.mp h with hcx | hm
        · exact hx hcx.symm
        · exact ih hm hf

/-- C6: for a message `/` followed by `rest`, `playerSay` splits `rest` at its first space
only.  Without a space the verb is `rest` and the argument is empty; when `rest` is a
space-free `verb`, one space and any `arg` (further spaces included), the split is
exactly `(verb, arg)`; whenever a space is present, `/` + verb + space + argument is the
message again; and the verb never contains a space. -/
theorem splitCommand_spec (rest : Text) :
    (' ' ∉ rest → splitCommand ('/' :: rest) = (rest, [])) ∧
    (∀ verb arg : Text, ' ' ∉ verb → rest = verb ++ ' ' :: arg →
      splitCommand ('/' :: rest) = (verb, arg)) ∧
    (' ' ∈ rest →
      '/' :: ((splitCommand ('/' :: rest)).1 ++ ' ' :: (splitCommand ('/' :: rest)).2) =
        '/' :: rest) ∧
    ' ' ∉ (splitCommand ('/' :: rest)).1 := by
  refine ⟨fun h => ?_, fun verb arg hv hr => ?_, fun h => ?_, ?_⟩
  · simp [splitCommand, substr, find_first_of_eq_none ' ' rest h]
  · subst hr
    simp [splitCommand, substr, find_first_of_append ' ' verb arg hv]
  · obtain ⟨i, hi⟩ := find_first_of_mem ' ' rest h
    obtain ⟨_, h2⟩ := find_first_of_eq_some ' ' rest i hi
    simp only [splitCommand, substr, List.drop_succ_cons, List.drop_zero, hi]
    rw [← h2]
  · cases hf : find_first_of rest ' ' with
    | none =>
      simp only [splitCommand, substr, List.drop_succ_cons, List.drop_zero, hf]
      intro hm
      obtain ⟨i, hi⟩ := find_first_of_mem ' ' rest hm
      rw [hf] at hi
      cases hi
    | some i =>
      simp only [splitCommand, substr, List.drop_succ_cons, List.drop_zero, hf]
      exact (find_first_of_eq_some ' ' rest i hf).1

/-- C6 at concrete messages: `/put 12 34` splits into `put` and `12 34`, and `/debug` into
`debug` and the empty argument. -/
theorem splitCommand_spec_witness :
    ' ' ∉ "put".toList ∧ "put 12 34".toList = "put".toList ++ ' ' :: "12 34".toList ∧
    splitCommand ('/' :: "put 12 34".toList) = ("put".toList, "12 34".toList) ∧
    ' ' ∉ "debug".toList ∧
    splitCommand ('/' :: "debug".toList) = ("debug".toList, []) :=
  ⟨by decide, by decide,
    (splitCommand_spec "put 12 34".toList).2.1 "put".toList "12 34".toList (by decide)
      (by decide),
    by decide, (splitCommand_spec "debug".toList).1 (by decide)⟩


/-! ## Chat commands: reading the item id of `/put` -/

theorem digitChar_spec : ∀ d : Nat, d < 10 →
    (Nat.digitChar d).isDigit = true ∧ (Nat.digitChar d).toNat - 48 = d := by
  decide

theorem readDigits_snoc (ds : Text) (d : Char) (hd : d.isDigit = true) :
    ∀ acc : Nat, (∀ c ∈ ds, c.isDigit = true) →
      readDigits (ds ++ [d]) acc = readDigits ds acc * 10 + (d.toNat - 48) := by
  induction ds with
  | nil => intro acc _; simp [readDigits, hd]
  | cons x xs ih =>
    intro acc h
    have hx : x.isDigit = true := h x (by simp)
    have hxs : ∀ c ∈ xs, c.isDigit = true := fun c hc => h c (List.mem_cons_of_mem _ hc)
    simp [readDigits, hx, ih _ hxs]

theorem toDigitsCore_append (fuel : Nat) :
    ∀ (n : Nat) (ds : List Char),
      Nat.toDigitsCore 10 fuel n ds = Nat.toDigitsCore 10 fuel n [] ++ ds := by
  induction fuel with
  | zero => intro n ds; simp [Nat.toDigitsCore]
  | succ f ih =>
    intro n ds
    simp only [Nat.toDigitsCore]
    split_ifs with h
    · simp
    · rw [ih (n / 10) (Nat.digitChar (n % 10) :: ds), ih (n / 10) [Nat.digitChar (n % 10)]]
      simp

theorem toDigitsCore_read (fuel : Nat) :
    ∀ n : Nat, n < fuel →
      (∀ c ∈ Nat.toDigitsCore 10 fuel n [], c.isDigit = true) ∧
      Nat.toDigitsCore 10 fuel n [] ≠ [] ∧
      readDigits (Nat.toDigitsCore 10 fuel n []) 0 = n := by
  induction fuel with
  | zero => intro n h; omega
  | succ f ih =>
    intro n hn
    have hd := digitChar_spec (n % 10) (Nat.mod_lt _ (by decide))
    simp only [Nat.toDigitsCore]
    split_ifs with h
    · have hlt : n < 10 := by omega
      have hmod : n % 10 = n := Nat.mod_eq_of_lt hlt
      rw [hmod] at hd ⊢
      simp [readDigits, hd.1, hd.2]
    · rw [toDigitsCore_append f (n / 10) [Nat.digitChar (n % 10)]]
      have hq : n / 10 < f := by omega
      obtain ⟨h1, _, h3⟩ := ih (n / 10) hq
      refine ⟨?_, by simp, ?_⟩
      · intro c hc
        rcases List.mem_append.mp hc with hc | hc
        · exact h1 c hc
        · simp at hc
          rw [hc]; exact hd.1
      · rw [readDigits_snoc _ _ hd.1 0 h1, h3, hd.2]
        omega


theorem isDigit_toNat (c : Char) (h : c.isDigit = true) : 48 ≤ c.toNat ∧ c.toNat ≤ 57 := by
  simp only [Char.isDigit, Bool.and_eq_true, decide_eq_true_eq] at h
  obtain ⟨h1, h2⟩ := h
  have h1n : (48 : UInt32).toNat ≤ c.val.toNat := h1
  have h2n : c.val.toNat ≤ (57 : UInt32).toNat := h2
  exact ⟨h1n, h2n⟩

theorem isDigit_not_special (c : Char) (h : c.isDigit = true) :
    isSpace c = false ∧ c ≠ '-' ∧ c ≠ '+' := by
  have hn := isDigit_toNat c h
  refine ⟨?_, ?_, ?_⟩
  · have hsp : c ≠ ' ' := by
      intro hc
      rw [hc] at hn
      revert hn
      decide
    simp only [isSpace, Bool.or_eq_false_iff, Bool.and_eq_false_iff, decide_eq_false_iff_not]
    exact ⟨hsp, Or.inr (by omega)⟩
  · intro hc; rw [hc] at hn; revert hn; decide
  · intro hc; rw [hc] at hn; revert hn; decide

theorem extractInt_decimalText (n : Int) :
    extractInt (decimalText n) = max INT_MIN (min INT_MAX n) := by
  cases n with
  | ofNat m =>
    obtain ⟨h1, h2, h3⟩ := toDigitsCore_read (m + 1) m (Nat.lt_succ_self m)
    have hdec : decimalText (Int.ofNat m) = Nat.toDigitsCore 10 (m + 1) m [] := rfl
    rw [hdec]
    cases hl : Nat.toDigitsCore 10 (m + 1) m [] with
    | nil => exact absurd hl h2
    | cons c rest =>
      rw [hl] at h1 h3
      obtain ⟨s1, s2, s3⟩ := isDigit_not_special c (h1 c (by simp))
      simp only [extractInt, skipWhitespace, s1, s2, s3, if_false, h3, Bool.false_eq_true]
      simp only [INT_MIN, INT_MAX, Int.ofNat_eq_coe]
      omega
  | negSucc m =>
    obtain ⟨h1, h2, h3⟩ := toDigitsCore_read (m + 1 + 1) (m + 1) (Nat.lt_succ_self _)
    have hdec : decimalText (Int.negSucc m) = '-' :: Nat.toDigitsCore 10 (m + 1 + 1) (m + 1) [] :=
      rfl
    have hs : isSpace '-' = false := by decide
    rw [hdec]
    simp only [extractInt, skipWhitespace, hs, if_true, h3, Bool.false_eq_true, if_false]
    simp only [INT_MIN, INT_MAX, Int.negSucc_eq]
    omega


theorem splitCommand_cut (verb arg : Text) (h : ' ' ∉ verb) :
    splitCommand ('/' :: (verb ++ ' ' :: arg)) = (verb, arg) := by
  simp [splitCommand, substr, find_first_of_append ' ' verb arg h]

theorem GameEngine.playerSay_command (e : GameEngine) (creatureId : CreatureId) (type : Nat)
    (rest receiver : Text) (channelId : Nat) :
    e.playerSay creatureId type ('/' :: rest) receiver channelId =
      (if (splitCommand ('/' :: rest)).1 = "debug".toList ∨
          (splitCommand ('/' :: rest)).1 = "debugf".toList then do
        let world ← e.world_
        let located ←
          if (splitCommand ('/' :: rest)).1 = "debug".toList then
            pure (world.getCreaturePosition creatureId)
          else do
            let player ← e.getPlayer creatureId
            pure (((world.getCreaturePosition creatureId).1.addDirection player.direction),
              (world.getCreaturePosition creatureId).2)
        ({ e with world_ := some (located.2.getTile located.1).2 } : GameEngine).sendTextMessage
          creatureId (debugText located.1 (located.2.getTile located.1).1)
      else if (splitCommand ('/' :: rest)).1 = "put".toList then
        if extractInt (splitCommand ('/' :: rest)).2 < 100 ∨
            extractInt (splitCommand ('/' :: rest)).2 > 2381 then
          e.sendTextMessage creatureId "Invalid itemId".toList
        else do
          let player ← e.getPlayer creatureId
          let world ← e.world_
          pure { e with
            world_ := some ((world.getCreaturePosition creatureId).2.addItem
              (extractInt (splitCommand ('/' :: rest)).2)
              ((world.getCreaturePosition creatureId).1.addDirection player.direction)) }
      else
        e.sendTextMessage creatureId "Invalid command".toList) := by
  simp [GameEngine.playerSay]

/-- C7: for the message `/put <n>`, `<n>` the decimal text of an integer `n`, sent by an
existing player: when `100 ≤ n ≤ 2381` the engine asks the world for the player's position
and calls `addItem` exactly once, with item id `n` and the position one step from there in
the player's direction, and sends the player nothing; for every other `n` the world is
not called at all and the player is sent exactly one text message, `Invalid itemId`. -/
theorem GameEngine.playerSay_put (e : GameEngine) (creatureId : CreatureId) (type : Nat)
    (receiver : Text) (channelId : Nat) (n : Int) (world : World) (player : Player)
    (playerCtrl : PlayerCtrl) (hw : e.world_ = some world)
    (hp : e.getPlayer creatureId = some player)
    (hc : e.getPlayerCtrl creatureId = some playerCtrl) :
    ((100 ≤ n ∧ n ≤ 2381) →
      e.playerSay creatureId type ("/put ".toList ++ decimalText n) receiver channelId =
        some { e with world_ := some { world with calls := world.calls ++
          [WorldCall.getCreaturePosition creatureId,
           WorldCall.addItem n
            ((world.creaturePosition world.calls creatureId).addDirection player.direction)] } }) ∧
    (¬ (100 ≤ n ∧ n ≤ 2381) →
      e.playerSay creatureId type ("/put ".toList ++ decimalText n) receiver channelId =
        some (e.setPlayerCtrl creatureId
          { playerCtrl with
            sent := playerCtrl.sent ++ [PlayerMessage.textMessage "Invalid itemId".toList] })) := by
  have hmsg : "/put ".toList ++ decimalText n = '/' :: ("put".toList ++ ' ' :: decimalText n) :=
    rfl
  have hsplit := splitCommand_cut "put".toList (decimalText n) (by decide)
  have h1 : ¬ ("put".toList = "debug".toList ∨ "put".toList = "debugf".toList) := by decide
  rw [hmsg, GameEngine.playerSay_command, hsplit]
  simp only [h1, if_false, if_true, extractInt_decimalText]
  constructor
  · intro hn
    have h3 : max INT_MIN (min INT_MAX n) = n := by
      simp only [INT_MIN, INT_MAX]; omega
    have h2 : ¬ (n < 100 ∨ n > 2381) := by omega
    rw [h3]
    simp only [h2, if_false, hp, hw, Option.bind_eq_bind, Option.some_bind]
    simp [World.getCreaturePosition, World.addItem, World.record]
  · intro hn
    have h2 : max INT_MIN (min INT_MAX n) < 100 ∨ max INT_MIN (min INT_MAX n) > 2381 := by
      simp only [INT_MIN, INT_MAX]; omega
    simp only [h2, if_true]
    simp [GameEngine.sendTextMessage, hc, GameEngine.setPlayerCtrl, PlayerCtrl.sendTextMessage]

/-- C7 at the scenario of the spec: player 1 stands at `(100,100,7)` facing east;
`/put 2222` places item 2222 at `(101,100,7)`, `/put 50` is answered with
`Invalid itemId` and the world is not touched. -/
theorem GameEngine.playerSay_put_witness :
    sampleEngine.playerSay 1 0 "/put 2222".toList [] 0 =
      some { sampleEngine with world_ := some { sampleWorld with calls :=
        [WorldCall.getCreaturePosition 1,
         WorldCall.addItem 2222 { x := 101, y := 100, z := 7 }] } } ∧
    sampleEngine.playerSay 1 0 "/put 50".toList [] 0 =
      some (sampleEngine.setPlayerCtrl 1
        { nextWalkTime := 500
          queuedMoves := []
          sent := [PlayerMessage.textMessage "Invalid itemId".toList] }) :=
  ⟨(GameEngine.playerSay_put sampleEngine 1 0 [] 0 2222 sampleWorld
      samplePlayer
      { nextWalkTime := 500, queuedMoves := [], sent := [] } rfl rfl rfl).1 (by decide),
   (GameEngine.playerSay_put sampleEngine 1 0 [] 0 50 sampleWorld
      samplePlayer
      { nextWalkTime := 500, queuedMoves := [], sent := [] } rfl rfl rfl).2 (by decide)⟩


/-! ## Chat commands: unknown verbs, and ordinary speech -/

/-- C8: for a message `/` followed by `rest` whose verb is none of `debug`, `debugf` and
`put`, sent by an existing player, the only effect of `playerSay` is one text message,
`Invalid command`, to that player: the world is left as it is, so no world call is made
and nothing is forwarded as speech. -/
theorem GameEngine.playerSay_invalid_command (e : GameEngine) (creatureId : CreatureId)
    (type : Nat) (rest receiver : Text) (channelId : Nat) (playerCtrl : PlayerCtrl)
    (hc : e.getPlayerCtrl creatureId = some playerCtrl)
    (hdebug : (splitCommand ('/' :: rest)).1 ≠ "debug".toList)
    (hdebugf : (splitCommand ('/' :: rest)).1 ≠ "debugf".toList)
    (hput : (splitCommand ('/' :: rest)).1 ≠ "put".toList) :
    ∃ e1, e.playerSay creatureId type ('/' :: rest) receiver channelId = some e1 ∧
      e1 = e.setPlayerCtrl creatureId (playerCtrl.sendTextMessage "Invalid command".toList) ∧
      e1.sentTo creatureId =
        playerCtrl.sent ++ [PlayerMessage.textMessage "Invalid command".toList] ∧
      e1.world_ = e.world_ ∧ e1.worldCalls = e.worldCalls := by
  refine ⟨_, ?_, rfl, ?_, rfl, rfl⟩
  · rw [GameEngine.playerSay_command, if_neg (not_or.mpr ⟨hdebug, hdebugf⟩), if_neg hput]
    simp [GameEngine.sendTextMessage, hc]
  · simp [GameEngine.sentTo, GameEngine.setPlayerCtrl, PlayerCtrl.sendTextMessage]

/-- C8 at concrete messages from player 1 of the sample engine: the bare `/` (empty verb)
and `/fly up` both yield the one message `Invalid command` and no world call. -/
theorem GameEngine.playerSay_invalid_command_witness :
    (∃ e1, sampleEngine.playerSay 1 0 ['/'] [] 0 = some e1 ∧
      e1 = sampleEngine.setPlayerCtrl 1 (PlayerCtrl.sendTextMessage
        { nextWalkTime := 500, queuedMoves := [], sent := [] } "Invalid command".toList) ∧
      e1.sentTo 1 = [PlayerMessage.textMessage "Invalid command".toList] ∧
      e1.world_ = sampleEngine.world_ ∧ e1.worldCalls = []) ∧
    (∃ e1, sampleEngine.playerSay 1 0 "/fly up".toList [] 0 = some e1 ∧
      e1 = sampleEngine.setPlayerCtrl 1 (PlayerCtrl.sendTextMessage
        { nextWalkTime := 500, queuedMoves := [], sent := [] } "Invalid command".toList) ∧
      e1.sentTo 1 = [PlayerMessage.textMessage "Invalid command".toList] ∧
      e1.world_ = sampleEngine.world_ ∧ e1.worldCalls = []) :=
  ⟨GameEngine.playerSay_invalid_command sampleEngine 1 0 [] [] 0 _ rfl
      (by decide) (by decide) (by decide),
   GameEngine.playerSay_invalid_command sampleEngine 1 0 "fly up".toList [] 0 _ rfl
      (by decide) (by decide) (by decide)⟩

/-- C9: for a message that does not begin with `/` (the empty message included), the only
effect of `playerSay` is one call `world.creatureSay(creatureId, message)` with the message
as received: no other world call is made and no message is sent to any player. -/
theorem GameEngine.playerSay_speech (e : GameEngine) (creatureId : CreatureId) (type : Nat)
    (message receiver : Text) (channelId : Nat) (world : World)
    (hw : e.world_ = some world) (hm : message.head? ≠ some '/') :
    ∃ e1, e.playerSay creatureId type message receiver channelId = some e1 ∧
      e1 = { e with world_ := some (world.creatureSay creatureId message) } ∧
      e1.worldCalls = world.calls ++ [WorldCall.creatureSay creatureId message] ∧
      e1.playerCtrls_ = e.playerCtrls_ := by
  refine ⟨_, ?_, rfl, ?_, rfl⟩
  · simp [GameEngine.playerSay, hm, hw]
  · simp [GameEngine.worldCalls, World.creatureSay, World.record]

/-- C9 at concrete messages from player 1 of the sample engine: `hello world` and the
empty message each reach the world as one `creatureSay`, unchanged. -/
theorem GameEngine.playerSay_speech_witness :
    "hello world".toList.head? ≠ some '/' ∧
    (∃ e1, sampleEngine.playerSay 1 0 "hello world".toList [] 0 = some e1 ∧
      e1 = { sampleEngine with
        world_ := some (sampleWorld.creatureSay 1 "hello world".toList) } ∧
      e1.worldCalls = [WorldCall.creatureSay 1 "hello world".toList] ∧
      e1.playerCtrls_ = sampleEngine.playerCtrls_) ∧
    (∃ e1, sampleEngine.playerSay 1 0 [] [] 0 = some e1 ∧
      e1 = { sampleEngine with world_ := some (sampleWorld.creatureSay 1 []) } ∧
      e1.worldCalls = [WorldCall.creatureSay 1 []] ∧
      e1.playerCtrls_ = sampleEngine.playerCtrls_) :=
  ⟨by decide,
   GameEngine.playerSay_speech sampleEngine 1 0 "hello world".toList [] 0 sampleWorld rfl
     (by decide),
   GameEngine.playerSay_speech sampleEngine 1 0 [] [] 0 sampleWorld rfl (by decide)⟩

/-! ## Moving an item from tile to tile: result codes and cancel texts -/

/-- C10 as stated fails: when `world.moveItem` answers with a result code that is neither
OK nor one of the three codes with a text, the player is sent nothing. -/
theorem GameEngine.moveItem_other_code_silent :
    (otherCodeWorld.moveItem 1 { x := 100, y := 100, z := 7 } 1 2222 1
      { x := 101, y := 100, z := 7 }).1 ≠ ReturnCode.OK ∧
    (({ sampleEngine with world_ := some otherCodeWorld } : GameEngine).playerMoveItemFromPosToPos
      1 { x := 100, y := 100, z := 7 } 1 2222 1 { x := 101, y := 100, z := 7 }).map
        (fun e => e.sentTo 1) = some [] := by
  decide

/-- C10, amended: `playerMoveItemFromPosToPos` makes the one `world.moveItem` call and then:
on OK sends nothing; on CANNOT_MOVE_THAT_OBJECT, CANNOT_REACH_THAT_OBJECT and
THERE_IS_NO_ROOM sends the player exactly one cancel message, `You cannot move that
object.`, `You are too far away.` and `There is no room.` respectively, three distinct
texts; on every other result code sends nothing. -/
theorem GameEngine.playerMoveItemFromPosToPos_spec (e : GameEngine) (creatureId : CreatureId)
    (fromPosition : Position) (fromStackPos itemId count : Int) (toPosition : Position)
    (world : World) (playerCtrl : PlayerCtrl)
    (hw : e.world_ = some world) (hc : e.getPlayerCtrl creatureId = some playerCtrl) :
    ∃ e1 : GameEngine,
      e1 = { e with world_ := some { world with calls := world.calls ++
        [WorldCall.moveItem creatureId fromPosition fromStackPos itemId count toPosition] } } ∧
      (∀ rc, world.moveItemResult world.calls creatureId fromPosition fromStackPos itemId count
          toPosition = rc →
        e.playerMoveItemFromPosToPos creatureId fromPosition fromStackPos itemId count
            toPosition =
          match rc with
          | ReturnCode.OK => some e1
          | ReturnCode.CANNOT_MOVE_THAT_OBJECT =>
            some (e1.setPlayerCtrl creatureId
              (playerCtrl.sendCancel "You cannot move that object.".toList))
          | ReturnCode.CANNOT_REACH_THAT_OBJECT =>
            some (e1.setPlayerCtrl creatureId
              (playerCtrl.sendCancel "You are too far away.".toList))
          | ReturnCode.THERE_IS_NO_ROOM =>
            some (e1.setPlayerCtrl creatureId
              (playerCtrl.sendCancel "There is no room.".toList))
          | ReturnCode.OTHER _ => some e1) ∧
      "You cannot move that object.".toList ≠ "You are too far away.".toList ∧
      "You cannot move that object.".toList ≠ "There is no room.".toList ∧
      "You are too far away.".toList ≠ "There is no room.".toList := by
  refine ⟨_, rfl, ?_, by decide, by decide, by decide⟩
  intro rc hrc
  unfold GameEngine.getPlayerCtrl at hc
  unfold GameEngine.playerMoveItemFromPosToPos
  simp only [hw, Option.bind_eq_bind, Option.some_bind, World.moveItem, hrc]
  cases rc <;>
    simp [GameEngine.sendCancel, GameEngine.getPlayerCtrl, hc, World.record,
      GameEngine.setPlayerCtrl]

/-- C10, amended, at player 1 of the sample engine moving item 2222 one tile east: when
the world answers OK only the `moveItem` call is recorded and nothing is sent; when it
answers THERE_IS_NO_ROOM the player is sent the one cancel message `There is no room.`. -/
theorem GameEngine.playerMoveItemFromPosToPos_spec_witness :
    sampleEngine.playerMoveItemFromPosToPos 1 { x := 100, y := 100, z := 7 } 1 2222 1
        { x := 101, y := 100, z := 7 } =
      some { sampleEngine with world_ := some { sampleWorld with calls :=
        [WorldCall.moveItem 1 { x := 100, y := 100, z := 7 } 1 2222 1
          { x := 101, y := 100, z := 7 }] } } ∧
    (({ sampleEngine with world_ := some noRoomWorld } : GameEngine).playerMoveItemFromPosToPos
        1 { x := 100, y := 100, z := 7 } 1 2222 1 { x := 101, y := 100, z := 7 }).map
      (fun e => (e.worldCalls, e.sentTo 1)) =
      some ([WorldCall.moveItem 1 { x := 100, y := 100, z := 7 } 1 2222 1
          { x := 101, y := 100, z := 7 }],
        [PlayerMessage.cancel "There is no room.".toList]) := by
  constructor
  · obtain ⟨e1, h1, h2, _⟩ := GameEngine.playerMoveItemFromPosToPos_spec sampleEngine 1
      { x := 100, y := 100, z := 7 } 1 2222 1 { x := 101, y := 100, z := 7 } sampleWorld
      { nextWalkTime := 500, queuedMoves := [], sent := [] } rfl rfl
    rw [h2 ReturnCode.OK rfl, h1]
    rfl
  · obtain ⟨e1, h1, h2, _⟩ := GameEngine.playerMoveItemFromPosToPos_spec
      ({ sampleEngine with world_ := some noRoomWorld } : GameEngine) 1
      { x := 100, y := 100, z := 7 } 1 2222 1 { x := 101, y := 100, z := 7 } noRoomWorld
      { nextWalkTime := 500, queuedMoves := [], sent := [] } rfl rfl
    rw [h2 ReturnCode.THERE_IS_NO_ROOM rfl, h1]
    decide

/-! ## Item transfers between tiles and the inventory -/

theorem World.transfersFrom_append (w : World) (xs ys : List WorldCall) :
    ∀ before : List WorldCall,
      w.transfersFrom before (xs ++ ys) =
        w.transfersFrom before xs ++ w.transfersFrom (before ++ xs) ys := by
  induction xs with
  | nil => intro before; simp [World.transfersFrom]
  | cons x xs ih =>
    intro before
    simp [World.transfersFrom, ih (before ++ [x]), List.append_assoc]

theorem World.accepted_record (w : World) (c x : WorldCall) (before : List WorldCall) :
    (w.record c).accepted before x = w.accepted before x := by
  cases x <;> rfl

theorem World.transfersFrom_record (w : World) (c : WorldCall) (xs : List WorldCall) :
    ∀ before : List WorldCall, (w.record c).transfersFrom before xs = w.transfersFrom before xs := by
  induction xs with
  | nil => intro before; rfl
  | cons x xs ih =>
    intro before
    simp [World.transfersFrom, ih (before ++ [x]), World.accepted_record]

theorem World.itemTransfers_record (w : World) (c : WorldCall) :
    (w.record c).itemTransfers =
      w.itemTransfers ++ (if w.accepted w.calls c then [c] else []) := by
  have h : (w.record c).calls = w.calls ++ [c] := rfl
  simp [World.itemTransfers, h, World.transfersFrom_record, World.transfersFrom_append,
    World.transfersFrom, World.accepted_record]

theorem Equipment.transfers_split (q : Equipment) (xs ys : List EquipmentCall) :
    ∀ before : List EquipmentCall,
      q.transfersFrom before (xs ++ ys) =
        q.transfersFrom before xs ++ q.transfersFrom (before ++ xs) ys := by
  induction xs with
  | nil => intro before; simp [Equipment.transfersFrom]
  | cons x xs ih =>
    intro before
    simp [Equipment.transfersFrom, ih (before ++ [x]), List.append_assoc]

theorem Equipment.transfersFrom_calls (q : Equipment) (cs : List EquipmentCall)
    (xs : List EquipmentCall) :
    ∀ before : List EquipmentCall,
      ({ q with calls := cs } : Equipment).transfersFrom before xs = q.transfersFrom before xs := by
  induction xs with
  | nil => intro before; rfl
  | cons x xs ih =>
    intro before
    have hx : ({ q with calls := cs } : Equipment).accepted before x = q.accepted before x := by
      cases x <;> rfl
    simp [Equipment.transfersFrom, ih (before ++ [x]), hx]

theorem Equipment.itemTransfers_addItem (q : Equipment) (item : Item) (i : Int) :
    (q.addItem item i).2.itemTransfers =
      q.itemTransfers ++ (if (q.addItem item i).1 then [EquipmentCall.addItem item i] else []) := by
  simp [Equipment.itemTransfers, Equipment.addItem, Equipment.transfersFrom_calls,
    Equipment.transfers_split, Equipment.transfersFrom, Equipment.accepted]

theorem Equipment.itemTransfers_removeItem (q : Equipment) (item : Item) (i : Int) :
    (q.removeItem item i).2.itemTransfers =
      q.itemTransfers ++
        (if (q.removeItem item i).1 then [EquipmentCall.removeItem item i] else []) := by
  simp [Equipment.itemTransfers, Equipment.removeItem, Equipment.transfersFrom_calls,
    Equipment.transfers_split, Equipment.transfersFrom, Equipment.accepted]


theorem World.itemTransfers_query (w : World) (c : WorldCall)
    (h : w.accepted w.calls c = false) : (w.record c).itemTransfers = w.itemTransfers := by
  rw [World.itemTransfers_record, h]
  simp

theorem GameEngine.posToInv_atomic (e : GameEngine) (creatureId : CreatureId)
    (fromPosition : Position) (fromStackPos itemId count toInventoryId : Int)
    (player : Player) (playerCtrl : PlayerCtrl) (world : World) (item : Item)
    (hp : e.getPlayer creatureId = some player)
    (hc : e.getPlayerCtrl creatureId = some playerCtrl) (hw : e.world_ = some world)
    (hitem : item = ((world.creatureCanReach creatureId fromPosition).2.getTile
      fromPosition).1.getItem fromStackPos)
    (hfail : (world.creatureCanReach creatureId fromPosition).1 = false ∨
      item.isValid = false ∨ item.itemId ≠ itemId ∨
      player.equipment.canAddItem item toInventoryId = false ∨
      (((world.creatureCanReach creatureId fromPosition).2.getTile
        fromPosition).2.removeItem itemId count fromPosition fromStackPos).1 ≠
          ReturnCode.OK) :
    ∃ e1, e.playerMoveItemFromPosToInv creatureId fromPosition fromStackPos itemId count
        toInventoryId = some e1 ∧
      e1.players_ = e.players_ ∧
      (e1.worldCalls = world.calls ++ [WorldCall.creatureCanReach creatureId fromPosition] ∨
        e1.worldCalls = world.calls ++
          [WorldCall.creatureCanReach creatureId fromPosition,
           WorldCall.getTile fromPosition] ∨
        ((((world.creatureCanReach creatureId fromPosition).2.getTile
            fromPosition).2.removeItem itemId count fromPosition fromStackPos).1 ≠
              ReturnCode.OK ∧
          e1.worldCalls = world.calls ++
            [WorldCall.creatureCanReach creatureId fromPosition,
             WorldCall.getTile fromPosition,
             WorldCall.removeItem itemId count fromPosition fromStackPos])) ∧
      e1.worldTransfers = e.worldTransfers ∧
      e1.equipmentTransfers creatureId = e.equipmentTransfers creatureId := by
  subst hitem
  have hp2 : e.players_ creatureId = some player := hp
  simp only [GameEngine.playerMoveItemFromPosToInv, hp, hc, hw, Option.bind_eq_bind,
    Option.some_bind, Option.pure_def]
  have hq1 : (world.creatureCanReach creatureId fromPosition).2.itemTransfers =
      world.itemTransfers := World.itemTransfers_query _ _ rfl
  have hq2 : ((world.creatureCanReach creatureId fromPosition).2.getTile
      fromPosition).2.itemTransfers = world.itemTransfers := by
    rw [← hq1]; exact World.itemTransfers_query _ _ rfl
  split_ifs with h1 h2 h3 h4
  · exact ⟨_, rfl, rfl,
      Or.inl (by simp [GameEngine.worldCalls, GameEngine.setPlayerCtrl,
        World.creatureCanReach, World.record]),
      by simp [GameEngine.worldTransfers, GameEngine.setPlayerCtrl, hw, hq1],
      by simp [GameEngine.equipmentTransfers, GameEngine.setPlayerCtrl]⟩
  · exact ⟨_, rfl, rfl,
      Or.inr (Or.inl (by simp [GameEngine.worldCalls, World.getTile,
        World.creatureCanReach, World.record])),
      by simp [GameEngine.worldTransfers, hw, hq2],
      by simp [GameEngine.equipmentTransfers]⟩
  · exact ⟨_, rfl, rfl,
      Or.inr (Or.inl (by simp [GameEngine.worldCalls, GameEngine.setPlayerCtrl,
        World.getTile, World.creatureCanReach, World.record])),
      by simp [GameEngine.worldTransfers, GameEngine.setPlayerCtrl, hw, hq2],
      by simp [GameEngine.equipmentTransfers, GameEngine.setPlayerCtrl]⟩
  · refine ⟨_, rfl, rfl,
      Or.inr (Or.inr ⟨h4, by simp [GameEngine.worldCalls, World.removeItem, World.getTile,
        World.creatureCanReach, World.record]⟩), ?_,
      by simp [GameEngine.equipmentTransfers]⟩
    have hacc : ((world.creatureCanReach creatureId fromPosition).2.getTile
        fromPosition).2.accepted ((world.creatureCanReach creatureId fromPosition).2.getTile
          fromPosition).2.calls (WorldCall.removeItem itemId count fromPosition fromStackPos) =
        false := by
      simp only [World.accepted, decide_eq_false_iff_not]
      exact h4
    simp only [GameEngine.worldTransfers, hw, World.removeItem]
    rw [World.itemTransfers_query _ _ hacc, hq2]
  · exfalso
    rcases hfail with h | h | h | h | h
    · exact h1 h
    · exact h2 (Or.inl h)
    · exact h2 (Or.inr h)
    · exact h3 h
    · exact h4 h

theorem GameEngine.equipmentTransfers_setPlayer (e : GameEngine) (creatureId : CreatureId)
    (p : Player) :
    (e.setPlayer creatureId p).equipmentTransfers creatureId = p.equipment.itemTransfers := by
  simp [GameEngine.equipmentTransfers, GameEngine.setPlayer]

theorem GameEngine.posToInv_moved (e : GameEngine) (creatureId : CreatureId)
    (fromPosition : Position) (fromStackPos itemId count toInventoryId : Int)
    (player : Player) (playerCtrl : PlayerCtrl) (world : World) (item : Item)
    (hp : e.getPlayer creatureId = some player)
    (hc : e.getPlayerCtrl creatureId = some playerCtrl) (hw : e.world_ = some world)
    (hitem : item = ((world.creatureCanReach creatureId fromPosition).2.getTile
      fromPosition).1.getItem fromStackPos)
    (h1 : (world.creatureCanReach creatureId fromPosition).1 = true)
    (h2 : item.isValid = true) (h3 : item.itemId = itemId)
    (h4 : player.equipment.canAddItem item toInventoryId = true)
    (h5 : (((world.creatureCanReach creatureId fromPosition).2.getTile
        fromPosition).2.removeItem itemId count fromPosition fromStackPos).1 =
          ReturnCode.OK) :
    ∃ e1, e.playerMoveItemFromPosToInv creatureId fromPosition fromStackPos itemId count
        toInventoryId = some e1 ∧
      e1.worldTransfers = e.worldTransfers ++
        [WorldCall.removeItem itemId count fromPosition fromStackPos] ∧
      e1.equipmentCalls creatureId =
        e.equipmentCalls creatureId ++ [EquipmentCall.addItem item toInventoryId] := by
  subst hitem
  simp only [GameEngine.playerMoveItemFromPosToInv, hp, hc, hw, Option.bind_eq_bind,
    Option.some_bind, Option.pure_def]
  have hq1 : (world.creatureCanReach creatureId fromPosition).2.itemTransfers =
      world.itemTransfers := World.itemTransfers_query _ _ rfl
  have hq2 : ((world.creatureCanReach creatureId fromPosition).2.getTile
      fromPosition).2.itemTransfers = world.itemTransfers := by
    rw [← hq1]; exact World.itemTransfers_query _ _ rfl
  have hacc : ((world.creatureCanReach creatureId fromPosition).2.getTile
      fromPosition).2.accepted ((world.creatureCanReach creatureId fromPosition).2.getTile
        fromPosition).2.calls (WorldCall.removeItem itemId count fromPosition fromStackPos) =
      true := by
    simp only [World.accepted, decide_eq_true_eq]
    exact h5
  rw [if_neg (by simp [h1]), if_neg (by simp [h2, h3]), if_neg (by simp [h4]),
    if_neg (by simp [h5])]
  have hp2 : e.players_ creatureId = some player := hp
  refine ⟨_, rfl, ?_, ?_⟩
  · simp only [GameEngine.worldTransfers, GameEngine.setPlayerCtrl, GameEngine.setPlayer, hw,
      World.removeItem]
    rw [World.itemTransfers_record, hacc, hq2]
    simp
  · simp [GameEngine.equipmentCalls, GameEngine.setPlayerCtrl, GameEngine.setPlayer, hp2,
      Equipment.addItem]

theorem GameEngine.invToPos_atomic (e : GameEngine) (creatureId : CreatureId)
    (fromInventoryId itemId count : Int) (toPosition : Position)
    (player : Player) (playerCtrl : PlayerCtrl) (world : World) (item : Item)
    (hp : e.getPlayer creatureId = some player)
    (hc : e.getPlayerCtrl creatureId = some playerCtrl) (hw : e.world_ = some world)
    (hitem : item = player.equipment.getItem fromInventoryId)
    (hfail : item.isValid = false ∨ item.itemId ≠ itemId ∨
      (world.creatureCanThrowTo creatureId toPosition).1 = false ∨
      (player.equipment.removeItem item fromInventoryId).1 = false) :
    ∃ e1, e.playerMoveItemFromInvToPos creatureId fromInventoryId itemId count toPosition =
        some e1 ∧
      (e1.worldCalls = world.calls ∨
        e1.worldCalls = world.calls ++ [WorldCall.creatureCanThrowTo creatureId toPosition]) ∧
      (e1.players_ = e.players_ ∨
        ((player.equipment.removeItem item fromInventoryId).1 = false ∧
          e1.players_ = (e.setPlayer creatureId
            { player with
              equipment := (player.equipment.removeItem item fromInventoryId).2 }).players_)) ∧
      e1.worldTransfers = e.worldTransfers ∧
      e1.equipmentTransfers creatureId = e.equipmentTransfers creatureId := by
  subst hitem
  have hp2 : e.players_ creatureId = some player := hp
  simp only [GameEngine.playerMoveItemFromInvToPos, hp, hc, hw, Option.bind_eq_bind,
    Option.some_bind, Option.pure_def]
  have hq1 : (world.creatureCanThrowTo creatureId toPosition).2.itemTransfers =
      world.itemTransfers := World.itemTransfers_query _ _ rfl
  split_ifs with h1 h2 h3
  · exact ⟨_, rfl, Or.inl (by simp [GameEngine.worldCalls, hw]), Or.inl rfl, rfl, rfl⟩
  · exact ⟨_, rfl,
      Or.inr (by simp [GameEngine.worldCalls, GameEngine.setPlayerCtrl,
        World.creatureCanThrowTo, World.record]),
      Or.inl rfl,
      by simp [GameEngine.worldTransfers, GameEngine.setPlayerCtrl, hw, hq1],
      by simp [GameEngine.equipmentTransfers, GameEngine.setPlayerCtrl]⟩
  · refine ⟨_, rfl,
      Or.inr (by simp [GameEngine.worldCalls, GameEngine.setPlayer,
        World.creatureCanThrowTo, World.record]),
      Or.inr ⟨h3, rfl⟩,
      by simp [GameEngine.worldTransfers, GameEngine.setPlayer, hw, hq1], ?_⟩
    rw [GameEngine.equipmentTransfers_setPlayer]
    simp only [GameEngine.equipmentTransfers, hp2]
    rw [Equipment.itemTransfers_removeItem, h3]
    simp
  · exfalso
    rcases hfail with h | h | h | h
    · exact h1 (Or.inl h)
    · exact h1 (Or.inr h)
    · exact h2 h
    · exact h3 h

theorem GameEngine.invToPos_moved (e : GameEngine) (creatureId : CreatureId)
    (fromInventoryId itemId count : Int) (toPosition : Position)
    (player : Player) (playerCtrl : PlayerCtrl) (world : World) (item : Item)
    (hp : e.getPlayer creatureId = some player)
    (hc : e.getPlayerCtrl creatureId = some playerCtrl) (hw : e.world_ = some world)
    (hitem : item = player.equipment.getItem fromInventoryId)
    (h1 : item.isValid = true) (h2 : item.itemId = itemId)
    (h3 : (world.creatureCanThrowTo creatureId toPosition).1 = true)
    (h4 : (player.equipment.removeItem item fromInventoryId).1 = true) :
    ∃ e1, e.playerMoveItemFromInvToPos creatureId fromInventoryId itemId count toPosition =
        some e1 ∧
      e1.equipmentTransfers creatureId = e.equipmentTransfers creatureId ++
        [EquipmentCall.removeItem item fromInventoryId] ∧
      e1.worldCalls = world.calls ++ [WorldCall.creatureCanThrowTo creatureId toPosition,
        WorldCall.addItemObject item toPosition] := by
  subst hitem
  have hp2 : e.players_ creatureId = some player := hp
  simp only [GameEngine.playerMoveItemFromInvToPos, hp, hc, hw, Option.bind_eq_bind,
    Option.some_bind, Option.pure_def]
  rw [if_neg (by simp [h1, h2]), if_neg (by simp [h3]), if_neg (by simp [h4])]
  refine ⟨_, rfl, ?_, ?_⟩
  · simp only [GameEngine.equipmentTransfers, GameEngine.setPlayerCtrl, GameEngine.setPlayer,
      Function.update_same, hp2]
    rw [Equipment.itemTransfers_removeItem, h4]
    simp
  · simp [GameEngine.worldCalls, GameEngine.setPlayerCtrl, GameEngine.setPlayer,
      World.addItemObject, World.creatureCanThrowTo, World.record]

theorem GameEngine.invToInv_atomic (e : GameEngine) (creatureId : CreatureId)
    (fromInventoryId itemId count toInventoryId : Int)
    (player : Player) (playerCtrl : PlayerCtrl) (item : Item)
    (hp : e.getPlayer creatureId = some player)
    (hc : e.getPlayerCtrl creatureId = some playerCtrl)
    (hitem : item = player.equipment.getItem fromInventoryId)
    (hfail : item.isValid = false ∨ item.itemId ≠ itemId ∨
      player.equipment.canAddItem item toInventoryId = false ∨
      (player.equipment.removeItem item fromInventoryId).1 = false) :
    ∃ e1, e.playerMoveItemFromInvToInv creatureId fromInventoryId itemId count toInventoryId =
        some e1 ∧
      e1.world_ = e.world_ ∧
      (e1.players_ = e.players_ ∨
        ((player.equipment.removeItem item fromInventoryId).1 = false ∧
          e1.players_ = (e.setPlayer creatureId
            { player with
              equipment := (player.equipment.removeItem item fromInventoryId).2 }).players_)) ∧
      e1.worldTransfers = e.worldTransfers ∧
      e1.equipmentTransfers creatureId = e.equipmentTransfers creatureId := by
  subst hitem
  have hp2 : e.players_ creatureId = some player := hp
  simp only [GameEngine.playerMoveItemFromInvToInv, hp, hc, Option.bind_eq_bind,
    Option.some_bind, Option.pure_def]
  split_ifs with h1 h2 h3
  · exact ⟨_, rfl, rfl, Or.inl rfl, rfl, rfl⟩
  · exact ⟨_, rfl, rfl, Or.inl rfl, rfl,
      by simp [GameEngine.equipmentTransfers, GameEngine.setPlayerCtrl]⟩
  · refine ⟨_, rfl, rfl, Or.inr ⟨h3, rfl⟩, rfl, ?_⟩
    rw [GameEngine.equipmentTransfers_setPlayer]
    simp only [GameEngine.equipmentTransfers, hp2]
    rw [Equipment.itemTransfers_removeItem, h3]
    simp
  · exfalso
    rcases hfail with h | h | h | h
    · exact h1 (Or.inl h)
    · exact h1 (Or.inr h)
    · exact h2 h
    · exact h3 h

theorem GameEngine.invToInv_moved (e : GameEngine) (creatureId : CreatureId)
    (fromInventoryId itemId count toInventoryId : Int)
    (player : Player) (playerCtrl : PlayerCtrl) (item : Item)
    (hp : e.getPlayer creatureId = some player)
    (hc : e.getPlayerCtrl creatureId = some playerCtrl)
    (hitem : item = player.equipment.getItem fromInventoryId)
    (h1 : item.isValid = true) (h2 : item.itemId = itemId)
    (h3 : player.equipment.canAddItem item toInventoryId = true)
    (h4 : (player.equipment.removeItem item fromInventoryId).1 = true) :
    ∃ e1, e.playerMoveItemFromInvToInv creatureId fromInventoryId itemId count
        toInventoryId = some e1 ∧
      e1.world_ = e.world_ ∧
      e1.equipmentCalls creatureId = e.equipmentCalls creatureId ++
        [EquipmentCall.removeItem item fromInventoryId,
         EquipmentCall.addItem item toInventoryId] := by
  subst hitem
  simp only [GameEngine.playerMoveItemFromInvToInv, hp, hc, Option.bind_eq_bind,
    Option.some_bind, Option.pure_def]
  rw [if_neg (by simp [h1, h2]), if_neg (by simp [h3]), if_neg (by simp [h4])]
  have hp2 : e.players_ creatureId = some player := hp
  refine ⟨_, rfl, rfl, ?_⟩
  simp [GameEngine.equipmentCalls, GameEngine.setPlayerCtrl, GameEngine.setPlayer, hp2,
    Equipment.addItem, Equipment.removeItem]


/-- C11 as stated fails: player 1 holds the torch in slot 5 and throws it to a tile the
world lets the player throw to but then refuses to add the item to (`addItem` answers
THERE_IS_NO_ROOM).  The addition to the destination has failed, yet the equipment has given
the torch up and no tile has received it. -/
theorem GameEngine.item_lost_on_refused_add :
    (({ sampleEngine with world_ := some fullTileWorld } : GameEngine).equipmentTransfers 1,
      ({ sampleEngine with world_ := some fullTileWorld } : GameEngine).worldTransfers) =
        ([], []) ∧
    ((fullTileWorld.creatureCanThrowTo 1 { x := 101, y := 100, z := 7 }).2.addItemObject
      sampleItem { x := 101, y := 100, z := 7 }).1 ≠ ReturnCode.OK ∧
    (({ sampleEngine with world_ := some fullTileWorld } : GameEngine).playerMoveItemFromInvToPos
      1 5 2222 1 { x := 101, y := 100, z := 7 }).map
        (fun e1 => (e1.equipmentTransfers 1, e1.worldTransfers)) =
      some ([EquipmentCall.removeItem sampleItem 5], []) := by
  decide

/-- C11, amended: for each of `playerMoveItemFromPosToInv`, `playerMoveItemFromInvToPos` and
`playerMoveItemFromInvToInv`, run for an existing player: if the reach or throw check, the
identity match, the destination's acceptance check or the removal from the source fails,
then after the call source and destination hold what they held: the calls made on the
world are its queries and at most the `removeItem` it refused, the only call made on any
equipment is at most the `removeItem` the player's equipment refused, and so neither the
world nor the equipment has carried out any change.  If all of these succeed, the item
is removed from the source and the addition to the destination is attempted exactly
once. -/
theorem GameEngine.item_transfer_atomic (e : GameEngine) (creatureId : CreatureId)
    (player : Player) (playerCtrl : PlayerCtrl) (world : World)
    (hp : e.getPlayer creatureId = some player)
    (hc : e.getPlayerCtrl creatureId = some playerCtrl) (hw : e.world_ = some world) :
    (∀ (fromPosition : Position) (fromStackPos itemId count toInventoryId : Int) (item : Item),
      item = ((world.creatureCanReach creatureId fromPosition).2.getTile
        fromPosition).1.getItem fromStackPos →
      (((world.creatureCanReach creatureId fromPosition).1 = false ∨
          item.isValid = false ∨ item.itemId ≠ itemId ∨
          player.equipment.canAddItem item toInventoryId = false ∨
          (((world.creatureCanReach creatureId fromPosition).2.getTile
            fromPosition).2.removeItem itemId count fromPosition fromStackPos).1 ≠
              ReturnCode.OK) →
        ∃ e1, e.playerMoveItemFromPosToInv creatureId fromPosition fromStackPos itemId count
            toInventoryId = some e1 ∧
          e1.players_ = e.players_ ∧
          (e1.worldCalls = world.calls ++
              [WorldCall.creatureCanReach creatureId fromPosition] ∨
            e1.worldCalls = world.calls ++
              [WorldCall.creatureCanReach creatureId fromPosition,
               WorldCall.getTile fromPosition] ∨
            ((((world.creatureCanReach creatureId fromPosition).2.getTile
                fromPosition).2.removeItem itemId count fromPosition fromStackPos).1 ≠
                  ReturnCode.OK ∧
              e1.worldCalls = world.calls ++
                [WorldCall.creatureCanReach creatureId fromPosition,
                 WorldCall.getTile fromPosition,
                 WorldCall.removeItem itemId count fromPosition fromStackPos])) ∧
          e1.worldTransfers = e.worldTransfers ∧
          e1.equipmentTransfers creatureId = e.equipmentTransfers creatureId) ∧
      (((world.creatureCanReach creatureId fromPosition).1 = true ∧
          item.isValid = true ∧ item.itemId = itemId ∧
          player.equipment.canAddItem item toInventoryId = true ∧
          (((world.creatureCanReach creatureId fromPosition).2.getTile
            fromPosition).2.removeItem itemId count fromPosition fromStackPos).1 =
              ReturnCode.OK) →
        ∃ e1, e.playerMoveItemFromPosToInv creatureId fromPosition fromStackPos itemId count
            toInventoryId = some e1 ∧
          e1.worldTransfers = e.worldTransfers ++
            [WorldCall.removeItem itemId count fromPosition fromStackPos] ∧
          e1.equipmentCalls creatureId =
            e.equipmentCalls creatureId ++ [EquipmentCall.addItem item toInventoryId])) ∧
    (∀ (fromInventoryId itemId count : Int) (toPosition : Position) (item : Item),
      item = player.equipment.getItem fromInventoryId →
      ((item.isValid = false ∨ item.itemId ≠ itemId ∨
          (world.creatureCanThrowTo creatureId toPosition).1 = false ∨
          (player.equipment.removeItem item fromInventoryId).1 = false) →
        ∃ e1, e.playerMoveItemFromInvToPos creatureId fromInventoryId itemId count
            toPosition = some e1 ∧
          (e1.worldCalls = world.calls ∨
            e1.worldCalls = world.calls ++
              [WorldCall.creatureCanThrowTo creatureId toPosition]) ∧
          (e1.players_ = e.players_ ∨
            ((player.equipment.removeItem item fromInventoryId).1 = false ∧
              e1.players_ = (e.setPlayer creatureId
                { player with
                  equipment :=
                    (player.equipment.removeItem item fromInventoryId).2 }).players_)) ∧
          e1.worldTransfers = e.worldTransfers ∧
          e1.equipmentTransfers creatureId = e.equipmentTransfers creatureId) ∧
      ((item.isValid = true ∧ item.itemId = itemId ∧
          (world.creatureCanThrowTo creatureId toPosition).1 = true ∧
          (player.equipment.removeItem item fromInventoryId).1 = true) →
        ∃ e1, e.playerMoveItemFromInvToPos creatureId fromInventoryId itemId count
            toPosition = some e1 ∧
          e1.equipmentTransfers creatureId = e.equipmentTransfers creatureId ++
            [EquipmentCall.removeItem item fromInventoryId] ∧
          e1.worldCalls = world.calls ++
            [WorldCall.creatureCanThrowTo creatureId toPosition,
             WorldCall.addItemObject item toPosition])) ∧
    (∀ (fromInventoryId itemId count toInventoryId : Int) (item : Item),
      item = player.equipment.getItem fromInventoryId →
      ((item.isValid = false ∨ item.itemId ≠ itemId ∨
          player.equipment.canAddItem item toInventoryId = false ∨
          (player.equipment.removeItem item fromInventoryId).1 = false) →
        ∃ e1, e.playerMoveItemFromInvToInv creatureId fromInventoryId itemId count
            toInventoryId = some e1 ∧
          e1.world_ = e.world_ ∧
          (e1.players_ = e.players_ ∨
            ((player.equipment.removeItem item fromInventoryId).1 = false ∧
              e1.players_ = (e.setPlayer creatureId
                { player with
                  equipment :=
                    (player.equipment.removeItem item fromInventoryId).2 }).players_)) ∧
          e1.worldTransfers = e.worldTransfers ∧
          e1.equipmentTransfers creatureId = e.equipmentTransfers creatureId) ∧
      ((item.isValid = true ∧ item.itemId = itemId ∧
          player.equipment.canAddItem item toInventoryId = true ∧
          (player.equipment.removeItem item fromInventoryId).1 = true) →
        ∃ e1, e.playerMoveItemFromInvToInv creatureId fromInventoryId itemId count
            toInventoryId = some e1 ∧
          e1.world_ = e.world_ ∧
          e1.equipmentCalls creatureId = e.equipmentCalls creatureId ++
            [EquipmentCall.removeItem item fromInventoryId,
             EquipmentCall.addItem item toInventoryId])) := by
  refine ⟨?_, ?_, ?_⟩
  · intro fromPosition fromStackPos itemId count toInventoryId item hitem
    exact ⟨fun hfail => GameEngine.posToInv_atomic e creatureId fromPosition fromStackPos
        itemId count toInventoryId player playerCtrl world item hp hc hw hitem hfail,
      fun h => GameEngine.posToInv_moved e creatureId fromPosition fromStackPos itemId count
        toInventoryId player playerCtrl world item hp hc hw hitem h.1 h.2.1 h.2.2.1
        h.2.2.2.1 h.2.2.2.2⟩
  · intro fromInventoryId itemId count toPosition item hitem
    exact ⟨fun hfail => GameEngine.invToPos_atomic e creatureId fromInventoryId itemId count
        toPosition player playerCtrl world item hp hc hw hitem hfail,
      fun h => GameEngine.invToPos_moved e creatureId fromInventoryId itemId count toPosition
        player playerCtrl world item hp hc hw hitem h.1 h.2.1 h.2.2.1 h.2.2.2⟩
  · intro fromInventoryId itemId count toInventoryId item hitem
    exact ⟨fun hfail => GameEngine.invToInv_atomic e creatureId fromInventoryId itemId count
        toInventoryId player playerCtrl item hp hc hitem hfail,
      fun h => GameEngine.invToInv_moved e creatureId fromInventoryId itemId count
        toInventoryId player playerCtrl item hp hc hitem h.1 h.2.1 h.2.2.1 h.2.2.2⟩

/-- C11, amended, at player 1 of the sample engine: taking an item from an empty tile
stops at the identity match, the world has only been asked its two queries and no player
has changed; moving the torch from slot 5 to slot 4 leaves the world alone, removes the
torch from slot 5 and adds it to slot 4. -/
theorem GameEngine.item_transfer_atomic_witness :
    (∃ e1, sampleEngine.playerMoveItemFromPosToInv 1 { x := 101, y := 100, z := 7 } 0 2222 1
        4 = some e1 ∧
      e1.players_ = sampleEngine.players_ ∧
      (e1.worldCalls = sampleWorld.calls ++
          [WorldCall.creatureCanReach 1 { x := 101, y := 100, z := 7 }] ∨
        e1.worldCalls = sampleWorld.calls ++
          [WorldCall.creatureCanReach 1 { x := 101, y := 100, z := 7 },
           WorldCall.getTile { x := 101, y := 100, z := 7 }] ∨
        ((((sampleWorld.creatureCanReach 1 { x := 101, y := 100, z := 7 }).2.getTile
            { x := 101, y := 100, z := 7 }).2.removeItem 2222 1
              { x := 101, y := 100, z := 7 } 0).1 ≠ ReturnCode.OK ∧
          e1.worldCalls = sampleWorld.calls ++
            [WorldCall.creatureCanReach 1 { x := 101, y := 100, z := 7 },
             WorldCall.getTile { x := 101, y := 100, z := 7 },
             WorldCall.removeItem 2222 1 { x := 101, y := 100, z := 7 } 0])) ∧
      e1.worldTransfers = sampleEngine.worldTransfers ∧
      e1.equipmentTransfers 1 = sampleEngine.equipmentTransfers 1) ∧
    (∃ e1, sampleEngine.playerMoveItemFromInvToInv 1 5 2222 1 4 = some e1 ∧
      e1.world_ = sampleEngine.world_ ∧
      e1.equipmentCalls 1 = sampleEngine.equipmentCalls 1 ++
        [EquipmentCall.removeItem sampleItem 5, EquipmentCall.addItem sampleItem 4]) :=
  ⟨((GameEngine.item_transfer_atomic sampleEngine 1 samplePlayer
      { nextWalkTime := 500, queuedMoves := [], sent := [] } sampleWorld rfl rfl rfl).1
      { x := 101, y := 100, z := 7 } 0 2222 1 4 Item.invalid rfl).1 (Or.inr (Or.inl rfl)),
   ((GameEngine.item_transfer_atomic sampleEngine 1 samplePlayer
      { nextWalkTime := 500, queuedMoves := [], sent := [] } sampleWorld rfl rfl rfl).2.2
      5 2222 1 4 sampleItem rfl).2 ⟨rfl, rfl, rfl, rfl⟩⟩

/-- C12: when the item found at the source is invalid or its item id differs from the
claimed `itemId`, each transfer aborts silently.  In `playerMoveItemFromPosToInv`, once the
source is reachable, the world has only been asked the two queries `creatureCanReach` and
`getTile`, and no controller and no player has changed: no cancel or text message, no
`onEquipmentUpdated`, nothing removed, nothing added.  `playerMoveItemFromInvToPos` and
`playerMoveItemFromInvToInv` leave the whole engine as it is. -/
theorem GameEngine.item_mismatch_silent (e : GameEngine) (creatureId : CreatureId)
    (player : Player) (playerCtrl : PlayerCtrl) (world : World)
    (hp : e.getPlayer creatureId = some player)
    (hc : e.getPlayerCtrl creatureId = some playerCtrl) (hw : e.world_ = some world) :
    (∀ (fromPosition : Position) (fromStackPos itemId count toInventoryId : Int) (item : Item),
      item = ((world.creatureCanReach creatureId fromPosition).2.getTile
        fromPosition).1.getItem fromStackPos →
      (world.creatureCanReach creatureId fromPosition).1 = true →
      (item.isValid = false ∨ item.itemId ≠ itemId) →
      ∃ e1, e.playerMoveItemFromPosToInv creatureId fromPosition fromStackPos itemId count
          toInventoryId = some e1 ∧
        e1.playerCtrls_ = e.playerCtrls_ ∧ e1.players_ = e.players_ ∧
        e1.worldCalls = world.calls ++
          [WorldCall.creatureCanReach creatureId fromPosition,
           WorldCall.getTile fromPosition]) ∧
    (∀ (fromInventoryId itemId count : Int) (toPosition : Position) (item : Item),
      item = player.equipment.getItem fromInventoryId →
      (item.isValid = false ∨ item.itemId ≠ itemId) →
      e.playerMoveItemFromInvToPos creatureId fromInventoryId itemId count toPosition =
        some e) ∧
    (∀ (fromInventoryId itemId count toInventoryId : Int) (item : Item),
      item = player.equipment.getItem fromInventoryId →
      (item.isValid = false ∨ item.itemId ≠ itemId) →
      e.playerMoveItemFromInvToInv creatureId fromInventoryId itemId count toInventoryId =
        some e) := by
  refine ⟨?_, ?_, ?_⟩
  · intro fromPosition fromStackPos itemId count toInventoryId item hitem hreach hbad
    subst hitem
    simp only [GameEngine.playerMoveItemFromPosToInv, hp, hc, hw, Option.bind_eq_bind,
      Option.some_bind, Option.pure_def]
    rw [if_neg (by simp [hreach]), if_pos hbad]
    exact ⟨_, rfl, rfl, rfl, by
      simp [GameEngine.worldCalls, World.getTile, World.creatureCanReach, World.record]⟩
  · intro fromInventoryId itemId count toPosition item hitem hbad
    subst hitem
    simp only [GameEngine.playerMoveItemFromInvToPos, hp, hc, Option.bind_eq_bind,
      Option.some_bind, Option.pure_def]
    rw [if_pos hbad]
  · intro fromInventoryId itemId count toInventoryId item hitem hbad
    subst hitem
    simp only [GameEngine.playerMoveItemFromInvToInv, hp, hc, Option.bind_eq_bind,
      Option.some_bind, Option.pure_def]
    rw [if_pos hbad]

/-- C12 at player 1 of the sample engine, whose tiles and whose slot 4 are empty: taking
item 2222 from a tile asks the world two queries and changes nothing else; moving item
2222 out of slot 4, to a tile or to slot 6, leaves the engine as it is. -/
theorem GameEngine.item_mismatch_silent_witness :
    (∃ e1, sampleEngine.playerMoveItemFromPosToInv 1 { x := 101, y := 100, z := 7 } 0 2222 1
        4 = some e1 ∧
      e1.playerCtrls_ = sampleEngine.playerCtrls_ ∧ e1.players_ = sampleEngine.players_ ∧
      e1.worldCalls = sampleWorld.calls ++
        [WorldCall.creatureCanReach 1 { x := 101, y := 100, z := 7 },
         WorldCall.getTile { x := 101, y := 100, z := 7 }]) ∧
    sampleEngine.playerMoveItemFromInvToPos 1 4 2222 1 { x := 101, y := 100, z := 7 } =
      some sampleEngine ∧
    sampleEngine.playerMoveItemFromInvToInv 1 4 2222 1 6 = some sampleEngine :=
  ⟨(GameEngine.item_mismatch_silent sampleEngine 1 samplePlayer
      { nextWalkTime := 500, queuedMoves := [], sent := [] } sampleWorld rfl rfl rfl).1
      { x := 101, y := 100, z := 7 } 0 2222 1 4 Item.invalid rfl rfl (Or.inl rfl),
   (GameEngine.item_mismatch_silent sampleEngine 1 samplePlayer
      { nextWalkTime := 500, queuedMoves := [], sent := [] } sampleWorld rfl rfl rfl).2.1
      4 2222 1 { x := 101, y := 100, z := 7 } Item.invalid rfl (Or.inl rfl),
   (GameEngine.item_mismatch_silent sampleEngine 1 samplePlayer
      { nextWalkTime := 500, queuedMoves := [], sent := [] } sampleWorld rfl rfl rfl).2.2
      4 2222 1 6 Item.invalid rfl (Or.inl rfl)⟩

/-! ## IncomingPacket: bounds-checked reads and the two queries -/

theorem IncomingPacket.bytesLeft_eq (p : IncomingPacket) (h1 : p.position_ ≤ p.length_)
    (h2 : p.length_ < IncomingPacket.SIZE_MODULUS) :
    p.bytesLeft = p.length_ - p.position_ := by
  unfold IncomingPacket.bytesLeft
  unfold IncomingPacket.SIZE_MODULUS at h2 ⊢
  norm_num at h2 ⊢
  omega

theorem IncomingPacket.take_bounded (p : IncomingPacket) (n : Nat)
    (h1 : p.position_ ≤ p.length_) (h2 : p.length_ < IncomingPacket.SIZE_MODULUS) :
    (p.take n).2.position_ ≤ (p.take n).2.length_ ∧ (p.take n).2.length_ = p.length_ := by
  unfold IncomingPacket.take
  rw [IncomingPacket.bytesLeft_eq p h1 h2]
  split_ifs with h
  · exact ⟨h1, rfl⟩
  · refine ⟨?_, rfl⟩
    show p.position_ + n ≤ p.length_
    omega

theorem PacketRead.after_bounded (r : PacketRead) (p : IncomingPacket)
    (h1 : p.position_ ≤ p.length_) (h2 : p.length_ < IncomingPacket.SIZE_MODULUS) :
    (r.after p).position_ ≤ (r.after p).length_ ∧ (r.after p).length_ = p.length_ := by
  cases r with
  | getU8 => exact IncomingPacket.take_bounded p 1 h1 h2
  | getU16 => exact IncomingPacket.take_bounded p 2 h1 h2
  | getU32 => exact IncomingPacket.take_bounded p 4 h1 h2
  | getBytes n => exact IncomingPacket.take_bounded p n h1 h2
  | getString =>
    simp only [PacketRead.after, IncomingPacket.getString]
    rw [IncomingPacket.bytesLeft_eq p h1 h2]
    split_ifs with h3 h4
    · exact ⟨h1, rfl⟩
    · exact ⟨h1, rfl⟩
    · refine ⟨?_, rfl⟩
      show p.position_ + 2 +
        IncomingPacket.littleEndian ((p.buffer_.drop p.position_).take 2) ≤ p.length_
      omega

theorem PacketRead.afterAll_bounded (reads : List PacketRead) :
    ∀ p : IncomingPacket, p.position_ ≤ p.length_ → p.length_ < IncomingPacket.SIZE_MODULUS →
      (PacketRead.afterAll reads p).position_ ≤ (PacketRead.afterAll reads p).length_ ∧
      (PacketRead.afterAll reads p).length_ = p.length_ := by
  induction reads with
  | nil => intro p h1 _; exact ⟨h1, rfl⟩
  | cons r rs ih =>
    intro p h1 h2
    obtain ⟨h3, h4⟩ := PacketRead.after_bounded r p h1 h2
    obtain ⟨h5, h6⟩ := ih (r.after p) h3 (by rw [h4]; exact h2)
    exact ⟨h5, by rw [← h4]; exact h6⟩

theorem IncomingPacket.take_underflow (p : IncomingPacket) (n : Nat) (h : p.bytesLeft < n) :
    p.take n = (Except.error PacketError.Underflow, p) := by
  simp [IncomingPacket.take, h]

/-- C13: the reads of `IncomingPacket` are bounds-checked.  Starting from position 0 on a
buffer, after every sequence of `getU8`, `getU16`, `getU32`, `getString` and `getBytes`
calls the position is at most the buffer length; and in every packet state a read that asks
for more bytes than `bytesLeft()` fails with `Underflow`, which carries no data, and leaves
the packet, its position included, as it was. -/
theorem IncomingPacket.reads_bounds_checked (buffer : List Nat)
    (hlen : buffer.length < IncomingPacket.SIZE_MODULUS) :
    (∀ reads : List PacketRead,
      (PacketRead.afterAll reads (IncomingPacket.create buffer)).position_ ≤ buffer.length ∧
      (PacketRead.afterAll reads (IncomingPacket.create buffer)).length_ = buffer.length) ∧
    (∀ (p : IncomingPacket) (r : PacketRead), p.bytesLeft < r.requested p →
      r.underflows p = true ∧ r.after p = p) := by
  constructor
  · intro reads
    obtain ⟨h1, h2⟩ := PacketRead.afterAll_bounded reads (IncomingPacket.create buffer)
      (Nat.zero_le _) hlen
    have h3 : (IncomingPacket.create buffer).length_ = buffer.length := rfl
    rw [h3] at h2
    exact ⟨by rw [← h2]; exact h1, h2⟩
  · intro p r h
    cases r with
    | getU8 =>
      simp only [PacketRead.requested] at h
      simp [PacketRead.underflows, PacketRead.after, IncomingPacket.getU8,
        IncomingPacket.take_underflow p 1 h, PacketError.isUnderflow, Except.map]
    | getU16 =>
      simp only [PacketRead.requested] at h
      simp [PacketRead.underflows, PacketRead.after, IncomingPacket.getU16,
        IncomingPacket.take_underflow p 2 h, PacketError.isUnderflow, Except.map]
    | getU32 =>
      simp only [PacketRead.requested] at h
      simp [PacketRead.underflows, PacketRead.after, IncomingPacket.getU32,
        IncomingPacket.take_underflow p 4 h, PacketError.isUnderflow, Except.map]
    | getBytes n =>
      simp only [PacketRead.requested] at h
      simp [PacketRead.underflows, PacketRead.after, IncomingPacket.getBytes,
        IncomingPacket.take_underflow p n h, PacketError.isUnderflow]
    | getString =>
      simp only [PacketRead.requested] at h
      simp only [PacketRead.underflows, PacketRead.after, IncomingPacket.getString]
      by_cases h2 : p.bytesLeft < 2
      · simp [h2, PacketError.isUnderflow]
      · rw [if_neg h2] at h
        simp [h2, h, PacketError.isUnderflow]

/-- C13 at the packet `07 03 00 41 42 43 09 01`: a byte, a three-byte string, a 16-bit
integer, then a read of three bytes that underflows and a last byte that does not; the
position ends at 7 of 8, and a 32-bit read at position 6 fails and changes nothing. -/
theorem IncomingPacket.reads_bounds_checked_witness :
    (PacketRead.afterAll
        [PacketRead.getU8, PacketRead.getString, PacketRead.getBytes 3, PacketRead.getU8]
        (IncomingPacket.create [7, 3, 0, 65, 66, 67, 9, 1])).position_ ≤
      [7, 3, 0, 65, 66, 67, 9, 1].length ∧
    IncomingPacket.bytesLeft { buffer_ := [7, 3, 0, 65, 66, 67, 9, 1], length_ := 8, position_ := 6 } <
      PacketRead.requested PacketRead.getU32
        { buffer_ := [7, 3, 0, 65, 66, 67, 9, 1], length_ := 8, position_ := 6 } ∧
    PacketRead.underflows PacketRead.getU32
      { buffer_ := [7, 3, 0, 65, 66, 67, 9, 1], length_ := 8, position_ := 6 } = true ∧
    PacketRead.after PacketRead.getU32
      { buffer_ := [7, 3, 0, 65, 66, 67, 9, 1], length_ := 8, position_ := 6 } =
      { buffer_ := [7, 3, 0, 65, 66, 67, 9, 1], length_ := 8, position_ := 6 } :=
  have hlen : [7, 3, 0, 65, 66, 67, 9, 1].length < IncomingPacket.SIZE_MODULUS := by
    unfold IncomingPacket.SIZE_MODULUS; norm_num
  have hlt : IncomingPacket.bytesLeft
      { buffer_ := [7, 3, 0, 65, 66, 67, 9, 1], length_ := 8, position_ := 6 } <
      PacketRead.requested PacketRead.getU32
        { buffer_ := [7, 3, 0, 65, 66, 67, 9, 1], length_ := 8, position_ := 6 } := by
    unfold IncomingPacket.bytesLeft IncomingPacket.SIZE_MODULUS PacketRead.requested
    norm_num
  ⟨((IncomingPacket.reads_bounds_checked [7, 3, 0, 65, 66, 67, 9, 1] hlen).1 _).1, hlt,
    ((IncomingPacket.reads_bounds_checked [7, 3, 0, 65, 66, 67, 9, 1] hlen).2 _ _ hlt).1,
    ((IncomingPacket.reads_bounds_checked [7, 3, 0, 65, 66, 67, 9, 1] hlen).2 _ _ hlt).2⟩

/-- C14: `isEmpty()` and `bytesLeft()` are queries, functions of the packet that return a
value and no packet, so buffer, length and position are what they were; and in every
packet state with `position ≤ length` (a length being a `std::size_t`), `bytesLeft()` is
`length - position` and `isEmpty()` is true exactly when `bytesLeft()` is 0. -/
theorem IncomingPacket.queries_agree (p : IncomingPacket) (h1 : p.position_ ≤ p.length_)
    (h2 : p.length_ < IncomingPacket.SIZE_MODULUS) :
    p.bytesLeft = p.length_ - p.position_ ∧ (p.isEmpty = true ↔ p.bytesLeft = 0) := by
  have h := IncomingPacket.bytesLeft_eq p h1 h2
  refine ⟨h, ?_⟩
  rw [h]
  simp only [IncomingPacket.isEmpty, decide_eq_true_eq]
  omega

/-- C14 at two states of an 8-byte packet: at position 6 two bytes are left and the packet
is not empty, at position 8 none is left and it is empty. -/
theorem IncomingPacket.queries_agree_witness :
    (IncomingPacket.bytesLeft
        { buffer_ := [7, 3, 0, 65, 66, 67, 9, 1], length_ := 8, position_ := 6 } = 8 - 6 ∧
      (IncomingPacket.isEmpty
          { buffer_ := [7, 3, 0, 65, 66, 67, 9, 1], length_ := 8, position_ := 6 } = true ↔
        IncomingPacket.bytesLeft
          { buffer_ := [7, 3, 0, 65, 66, 67, 9, 1], length_ := 8, position_ := 6 } = 0)) ∧
    (IncomingPacket.bytesLeft
        { buffer_ := [7, 3, 0, 65, 66, 67, 9, 1], length_ := 8, position_ := 8 } = 8 - 8 ∧
      (IncomingPacket.isEmpty
          { buffer_ := [7, 3, 0, 65, 66, 67, 9, 1], length_ := 8, position_ := 8 } = true ↔
        IncomingPacket.bytesLeft
          { buffer_ := [7, 3, 0, 65, 66, 67, 9, 1], length_ := 8, position_ := 8 } = 0)) :=
  ⟨IncomingPacket.queries_agree _ (by decide)
      (by unfold IncomingPacket.SIZE_MODULUS; norm_num),
   IncomingPacket.queries_agree _ (by decide)
      (by unfold IncomingPacket.SIZE_MODULUS; norm_num)⟩

/-! ## Path moves -/

theorem GameEngine.playerMovePathStep_cons (e : GameEngine) (creatureId : CreatureId)
    (player : Player) (playerCtrl : PlayerCtrl) (world : World) (d : Direction)
    (rest : List Direction) (hp : e.players_ creatureId = some player)
    (hc : e.getPlayerCtrl creatureId = some playerCtrl) (hw : e.world_ = some world)
    (hq : playerCtrl.queuedMoves = d :: rest) :
    ∃ e1, e.playerMovePathStep creatureId = some e1 ∧
      e1.state_ = e.state_ ∧
      e1.world_ = some (world.record (WorldCall.creatureMove creatureId d)) ∧
      e1.players_ = e.players_ ∧
      e1.getPlayerCtrl creatureId = some { playerCtrl with queuedMoves := rest } ∧
      e1.taskQueue_ = e.taskQueue_ ++
        (if rest = [] then []
         else [{ task := QueuedTask.playerMovePathStep creatureId,
                 notBefore := playerCtrl.getNextWalkTime }]) := by
  have hhas : playerCtrl.hasQueuedMove = true := by simp [PlayerCtrl.hasQueuedMove, hq]
  have hnext : playerCtrl.getNextQueuedMove = some (d, { playerCtrl with queuedMoves := rest }) := by
    simp [PlayerCtrl.getNextQueuedMove, hq]
  unfold GameEngine.playerMovePathStep
  simp only [hp, Option.isNone_some, Bool.false_eq_true, if_false, hc, Option.bind_eq_bind,
    Option.some_bind, hhas, if_true, hnext, hw, Option.pure_def]
  simp only [GameEngine.getPlayerCtrl, GameEngine.setPlayerCtrl, Function.update_same,
    Option.some_bind]
  by_cases hr : rest = []
  · subst hr
    simp [PlayerCtrl.hasQueuedMove, World.creatureMove]
  · have h2 : PlayerCtrl.hasQueuedMove { playerCtrl with queuedMoves := rest } = true := by
      cases rest with
      | nil => exact absurd rfl hr
      | cons x xs => simp [PlayerCtrl.hasQueuedMove]
    simp [h2, hr, GameEngine.addTask, World.creatureMove, PlayerCtrl.getNextWalkTime]

theorem GameEngine.playerMovePathStep_idle (e : GameEngine) (creatureId : CreatureId)
    (playerCtrl : PlayerCtrl) (hc : e.getPlayerCtrl creatureId = some playerCtrl)
    (hq : playerCtrl.queuedMoves = []) : e.playerMovePathStep creatureId = some e := by
  have hhas : playerCtrl.hasQueuedMove = false := by simp [PlayerCtrl.hasQueuedMove, hq]
  unfold GameEngine.playerMovePathStep
  split_ifs with h
  · rfl
  · simp [hc, hhas]

theorem GameEngine.runTasks_empty (fuel : Nat) (e : GameEngine) (h : e.taskQueue_ = []) :
    GameEngine.runTasks fuel e = some (0, e) := by
  cases fuel <;> simp [GameEngine.runTasks, h]

theorem GameEngine.runTasks_succ (fuel : Nat) (e e1 : GameEngine) (h : e.taskQueue_ ≠ [])
    (h1 : e.runNextTask = some e1) :
    GameEngine.runTasks (fuel + 1) e =
      (GameEngine.runTasks fuel e1).map (fun r => (r.1 + 1, r.2)) := by
  simp only [GameEngine.runTasks, h, if_false, h1, Option.bind_eq_bind, Option.some_bind,
    Option.pure_def]
  cases GameEngine.runTasks fuel e1 <;> rfl

theorem GameEngine.runNextTask_single (e : GameEngine) (t : ScheduledTask)
    (h : e.taskQueue_ = [t]) (hs : e.state_ = State.RUNNING) :
    e.runNextTask = t.task.run { e with taskQueue_ := [] } := by
  simp [GameEngine.runNextTask, h, TaskQueue.earliest, GameEngine.onTask, hs]

theorem GameEngine.runTasks_path (creatureId : CreatureId) (moves : List Direction) :
    ∀ (d : Direction) (e : GameEngine) (player : Player) (playerCtrl : PlayerCtrl)
      (world : World) (t : ptime),
      e.state_ = State.RUNNING → e.players_ creatureId = some player →
      e.getPlayerCtrl creatureId = some playerCtrl → e.world_ = some world →
      playerCtrl.queuedMoves = d :: moves →
      e.taskQueue_ = [{ task := QueuedTask.playerMovePathStep creatureId, notBefore := t }] →
      ∃ e2, (∀ fuel, moves.length + 1 ≤ fuel →
          GameEngine.runTasks fuel e = some (moves.length + 1, e2)) ∧
        e2.worldCalls = world.calls ++ (d :: moves).map (WorldCall.creatureMove creatureId) ∧
        e2.taskQueue_ = [] := by
  induction moves with
  | nil =>
    intro d e player playerCtrl world t hs hp hc hw hq ht
    obtain ⟨e1, h1, _, h3, _, _, h6⟩ := GameEngine.playerMovePathStep_cons
      ({ e with taskQueue_ := [] } : GameEngine) creatureId player playerCtrl world d [] hp hc hw hq
    have hrun : e.runNextTask = some e1 := by
      rw [GameEngine.runNextTask_single e _ ht hs]
      exact h1
    have hq1 : e1.taskQueue_ = [] := by simpa using h6
    refine ⟨e1, ?_, ?_, hq1⟩
    · intro fuel hf
      obtain ⟨f, rfl⟩ : ∃ f, fuel = f + 1 := ⟨fuel - 1, by simp at hf; omega⟩
      rw [GameEngine.runTasks_succ f e e1 (by simp [ht]) hrun,
        GameEngine.runTasks_empty f e1 hq1]
      rfl
    · simp [GameEngine.worldCalls, h3, World.record]
  | cons d2 ms ih =>
    intro d e player playerCtrl world t hs hp hc hw hq ht
    obtain ⟨e1, h1, h2, h3, h4, h5, h6⟩ := GameEngine.playerMovePathStep_cons
      ({ e with taskQueue_ := [] } : GameEngine) creatureId player playerCtrl world d (d2 :: ms)
      hp hc hw hq
    have hrun : e.runNextTask = some e1 := by
      rw [GameEngine.runNextTask_single e _ ht hs]
      exact h1
    have hq1 : e1.taskQueue_ =
        [(⟨QueuedTask.playerMovePathStep creatureId, playerCtrl.getNextWalkTime⟩ :
          ScheduledTask)] := by simpa using h6
    have hs1 : e1.state_ = State.RUNNING := by rw [h2]; exact hs
    have hp1 : e1.players_ creatureId = some player := by rw [h4]; exact hp
    obtain ⟨e2, g1, g2, g3⟩ := ih d2 e1 player { playerCtrl with queuedMoves := d2 :: ms }
      (world.record (WorldCall.creatureMove creatureId d)) playerCtrl.getNextWalkTime
      hs1 hp1 h5 h3 rfl hq1
    refine ⟨e2, ?_, ?_, g3⟩
    · intro fuel hf
      obtain ⟨f, rfl⟩ : ∃ f, fuel = f + 1 := ⟨fuel - 1, by simp at hf; omega⟩
      rw [GameEngine.runTasks_succ f e e1 (by simp [ht]) hrun,
        g1 f (by simp at hf ⊢; omega)]
      rfl
    · rw [g2]
      simp [World.record]

/-- C15 at the failing input: in a world that answers every `creatureMove` with
THERE_IS_NO_ROOM, a direct move of player 1 made at once and a deferred one run from the
task queue each send the cancel message `There is no room.`, but a path step makes the
same refused `creatureMove` and sends the player nothing. -/
theorem GameEngine.pathStep_no_room_unreported :
    (noRoomWorld.creatureMove 1 Direction.EAST).1 = ReturnCode.THERE_IS_NO_ROOM ∧
    (({ sampleEngine with world_ := some noRoomWorld } : GameEngine).playerMove 1
        Direction.EAST 500).map (fun e => (e.worldCalls, e.sentTo 1)) =
      some ([WorldCall.creatureMove 1 Direction.EAST],
        [PlayerMessage.cancel "There is no room.".toList]) ∧
    ((({ sampleEngine with world_ := some noRoomWorld } : GameEngine).playerMove 1
        Direction.EAST 100).bind GameEngine.runNextTask).map
          (fun e => (e.worldCalls, e.sentTo 1)) =
      some ([WorldCall.creatureMove 1 Direction.EAST],
        [PlayerMessage.cancel "There is no room.".toList]) ∧
    ((({ sampleEngine with world_ := some noRoomWorld } : GameEngine).playerMovePath 1
        [Direction.EAST]).bind (fun e => e.playerMovePathStep 1)).map
          (fun e => (e.worldCalls, e.sentTo 1)) =
      some ([WorldCall.creatureMove 1 Direction.EAST], []) := by
  decide

/-- C17: for an existing player whose pending-move queue is `d` followed by `rest` (so
`n = rest.length + 1`), one run of `playerMovePathStep` makes exactly one world call,
`creatureMove(creatureId, d)`, leaves `rest` queued in its order, and adds to the task
queue exactly one further step task, due at the player's next walk time, when `rest` is
not empty (`n ≥ 2`) and nothing when it is (`n = 1`). -/
theorem GameEngine.playerMovePathStep_spec (e : GameEngine) (creatureId : CreatureId)
    (player : Player) (playerCtrl : PlayerCtrl) (world : World) (d : Direction)
    (rest : List Direction) (hp : e.players_ creatureId = some player)
    (hc : e.getPlayerCtrl creatureId = some playerCtrl) (hw : e.world_ = some world)
    (hq : playerCtrl.queuedMoves = d :: rest) :
    ∃ e1, e.playerMovePathStep creatureId = some e1 ∧
      e1.worldCalls = world.calls ++ [WorldCall.creatureMove creatureId d] ∧
      e1.getPlayerCtrl creatureId = some { playerCtrl with queuedMoves := rest } ∧
      e1.taskQueue_ = e.taskQueue_ ++
        (if rest = [] then []
         else [{ task := QueuedTask.playerMovePathStep creatureId,
                 notBefore := playerCtrl.getNextWalkTime }]) := by
  obtain ⟨e1, h1, _, h3, _, h5, h6⟩ := GameEngine.playerMovePathStep_cons e creatureId player
    playerCtrl world d rest hp hc hw hq
  exact ⟨e1, h1, by simp [GameEngine.worldCalls, h3, World.record], h5, h6⟩

/-- C17 at player 1 of the sample engine: with the moves east, north queued a step moves
east, keeps north and schedules the next step for time 500; with only east queued a step
moves east and schedules nothing. -/
theorem GameEngine.playerMovePathStep_spec_witness :
    (∃ e1, (sampleEngine.setPlayerCtrl 1
        { nextWalkTime := 500, queuedMoves := [Direction.EAST, Direction.NORTH],
          sent := [] }).playerMovePathStep 1 = some e1 ∧
      e1.worldCalls = [WorldCall.creatureMove 1 Direction.EAST] ∧
      e1.getPlayerCtrl 1 =
        some { nextWalkTime := 500, queuedMoves := [Direction.NORTH], sent := [] } ∧
      e1.taskQueue_ = [{ task := QueuedTask.playerMovePathStep 1, notBefore := 500 }]) ∧
    (∃ e1, (sampleEngine.setPlayerCtrl 1
        { nextWalkTime := 500, queuedMoves := [Direction.EAST],
          sent := [] }).playerMovePathStep 1 = some e1 ∧
      e1.worldCalls = [WorldCall.creatureMove 1 Direction.EAST] ∧
      e1.getPlayerCtrl 1 = some { nextWalkTime := 500, queuedMoves := [], sent := [] } ∧
      e1.taskQueue_ = []) :=
  ⟨GameEngine.playerMovePathStep_spec _ 1 samplePlayer
      { nextWalkTime := 500, queuedMoves := [Direction.EAST, Direction.NORTH], sent := [] }
      sampleWorld Direction.EAST [Direction.NORTH] rfl
      (by simp [GameEngine.getPlayerCtrl, GameEngine.setPlayerCtrl]) rfl rfl,
   GameEngine.playerMovePathStep_spec _ 1 samplePlayer
      { nextWalkTime := 500, queuedMoves := [Direction.EAST], sent := [] }
      sampleWorld Direction.EAST [] rfl
      (by simp [GameEngine.getPlayerCtrl, GameEngine.setPlayerCtrl]) rfl rfl⟩

/-- C20: the constructor leaves the state INITIALIZED, and in that state `onTask(task)`
does not run the task and leaves the engine, its state included, as it is: a task met
before `start()` is dropped. -/
theorem GameEngine.onTask_initialized (world : Option World) (e : GameEngine)
    (task : GameEngine → Option GameEngine) :
    (GameEngine.create world).state_ = State.INITIALIZED ∧
    (e.state_ = State.INITIALIZED → e.onTask task = some e) := by
  refine ⟨rfl, fun h => ?_⟩
  simp [GameEngine.onTask, h]

/-- C20 at a freshly constructed engine and the queued move of player 1: the task is not
run, no `creatureMove` reaches the world and the state is still INITIALIZED. -/
theorem GameEngine.onTask_initialized_witness :
    (GameEngine.create (some sampleWorld)).state_ = State.INITIALIZED ∧
    (GameEngine.create (some sampleWorld)).onTask
        (QueuedTask.creatureMoveFunc 1 Direction.EAST).run =
      some (GameEngine.create (some sampleWorld)) ∧
    (GameEngine.create (some sampleWorld)).worldCalls = [] :=
  ⟨rfl, (GameEngine.onTask_initialized (some sampleWorld) (GameEngine.create (some sampleWorld))
      (QueuedTask.creatureMoveFunc 1 Direction.EAST).run).2 rfl, rfl⟩

/-- C19 as stated fails: player 1 queues a path and cancels it, which leaves the engine
RUNNING with an empty pending-move queue and the step task of the cancelled path still
pending.  A path of one direction queued from there makes its one `creatureMove`, but two
step tasks run before the task queue is empty, not `max 1 1 = 1`. -/
theorem GameEngine.stale_step_task_counted :
    ((sampleEngine.playerMovePath 1 [Direction.NORTH]).bind
        (fun e => e.playerCancelMove 1)).map
      (fun e => (e.state_, (e.getPlayerCtrl 1).map PlayerCtrl.queuedMoves, e.taskQueue_)) =
      some (State.RUNNING, some [],
        [{ task := QueuedTask.playerMovePathStep 1, notBefore := 500 }]) ∧
    ((((sampleEngine.playerMovePath 1 [Direction.NORTH]).bind
        (fun e => e.playerCancelMove 1)).bind
        (fun e => e.playerMovePath 1 [Direction.EAST])).bind (GameEngine.runTasks 10)).map
      (fun r => (r.1, r.2.worldCalls, r.2.taskQueue_)) =
      some (2, [WorldCall.creatureMove 1 Direction.EAST], []) ∧
    2 ≠ max [Direction.EAST].length 1 := by
  decide

/-- C19, amended: from an empty pending-move queue and an empty task queue (no task
pending, so no step task left over from an earlier path), with the engine RUNNING,
`playerMovePath` with a path of `n` directions followed by running the scheduled tasks
until none is pending makes exactly the `n` calls `creatureMove(creatureId, d)`, `d` going
through the path in order, runs exactly `max n 1` tasks and ends with an empty task queue;
any fuel of at least `max n 1` is enough. -/
theorem GameEngine.playerMovePath_terminates (e : GameEngine) (creatureId : CreatureId)
    (player : Player) (playerCtrl : PlayerCtrl) (world : World) (path : List Direction)
    (hs : e.state_ = State.RUNNING) (hp : e.players_ creatureId = some player)
    (hc : e.getPlayerCtrl creatureId = some playerCtrl) (hw : e.world_ = some world)
    (hq : playerCtrl.queuedMoves = []) (ht : e.taskQueue_ = []) :
    ∃ e1 e2, e.playerMovePath creatureId path = some e1 ∧
      (∀ fuel, max path.length 1 ≤ fuel →
        GameEngine.runTasks fuel e1 = some (max path.length 1, e2)) ∧
      e2.worldCalls = world.calls ++ path.map (WorldCall.creatureMove creatureId) ∧
      e2.taskQueue_ = [] := by
  have hmove : e.playerMovePath creatureId path =
      some ((e.setPlayerCtrl creatureId (playerCtrl.queueMoves path)).addTask
        (QueuedTask.playerMovePathStep creatureId) playerCtrl.getNextWalkTime) := by
    simp [GameEngine.playerMovePath, hc, PlayerCtrl.queueMoves, PlayerCtrl.getNextWalkTime]
  have hc1 : ((e.setPlayerCtrl creatureId (playerCtrl.queueMoves path)).addTask
      (QueuedTask.playerMovePathStep creatureId) playerCtrl.getNextWalkTime).getPlayerCtrl
        creatureId = some (playerCtrl.queueMoves path) := by
    simp [GameEngine.getPlayerCtrl, GameEngine.setPlayerCtrl, GameEngine.addTask]
  have hq1 : (playerCtrl.queueMoves path).queuedMoves = path := by
    simp [PlayerCtrl.queueMoves, hq]
  have ht1 : ((e.setPlayerCtrl creatureId (playerCtrl.queueMoves path)).addTask
      (QueuedTask.playerMovePathStep creatureId) playerCtrl.getNextWalkTime).taskQueue_ =
      [(⟨QueuedTask.playerMovePathStep creatureId, playerCtrl.getNextWalkTime⟩ :
        ScheduledTask)] := by
    simp [GameEngine.setPlayerCtrl, GameEngine.addTask, ht]
  cases path with
  | nil =>
    refine ⟨_, ({ (e.setPlayerCtrl creatureId (playerCtrl.queueMoves [])).addTask
        (QueuedTask.playerMovePathStep creatureId) playerCtrl.getNextWalkTime with
        taskQueue_ := [] } : GameEngine), hmove, ?_, ?_, ?_⟩
    · intro fuel hf
      obtain ⟨f, rfl⟩ : ∃ f, fuel = f + 1 := ⟨fuel - 1, by simp at hf; omega⟩
      have hrun : GameEngine.runNextTask
          ((e.setPlayerCtrl creatureId (playerCtrl.queueMoves [])).addTask
            (QueuedTask.playerMovePathStep creatureId) playerCtrl.getNextWalkTime) =
          some ({ (e.setPlayerCtrl creatureId (playerCtrl.queueMoves [])).addTask
            (QueuedTask.playerMovePathStep creatureId) playerCtrl.getNextWalkTime with
            taskQueue_ := [] } : GameEngine) := by
        rw [GameEngine.runNextTask_single _ _ ht1 hs]
        exact GameEngine.playerMovePathStep_idle _ creatureId (playerCtrl.queueMoves [])
          hc1 hq1
      rw [GameEngine.runTasks_succ f _ _ (by rw [ht1]; simp) hrun,
        GameEngine.runTasks_empty f _ rfl]
      rfl
    · simp [GameEngine.worldCalls, GameEngine.setPlayerCtrl, GameEngine.addTask, hw]
    · rfl
  | cons d moves =>
    obtain ⟨e2, g1, g2, g3⟩ := GameEngine.runTasks_path creatureId moves d
      ((e.setPlayerCtrl creatureId (playerCtrl.queueMoves (d :: moves))).addTask
        (QueuedTask.playerMovePathStep creatureId) playerCtrl.getNextWalkTime) player
      (playerCtrl.queueMoves (d :: moves)) world playerCtrl.getNextWalkTime hs hp hc1 hw hq1 ht1
    refine ⟨_, e2, hmove, ?_, g2, g3⟩
    intro fuel hf
    have hmax : max (d :: moves).length 1 = moves.length + 1 := by simp
    rw [hmax] at hf ⊢
    exact g1 fuel hf

/-- C19, amended, at player 1 of the sample engine and the path east, north, west: three tasks run,
the three moves reach the world in path order, and the task queue ends empty. -/
theorem GameEngine.playerMovePath_terminates_witness :
    ∃ e1 e2,
      sampleEngine.playerMovePath 1 [Direction.EAST, Direction.NORTH, Direction.WEST] =
        some e1 ∧
      (∀ fuel, max [Direction.EAST, Direction.NORTH, Direction.WEST].length 1 ≤ fuel →
        GameEngine.runTasks fuel e1 =
          some (max [Direction.EAST, Direction.NORTH, Direction.WEST].length 1, e2)) ∧
      e2.worldCalls = sampleWorld.calls ++
        [Direction.EAST, Direction.NORTH, Direction.WEST].map (WorldCall.creatureMove 1) ∧
      e2.taskQueue_ = [] :=
  GameEngine.playerMovePath_terminates sampleEngine 1 samplePlayer
    { nextWalkTime := 500, queuedMoves := [], sent := [] } sampleWorld
    [Direction.EAST, Direction.NORTH, Direction.WEST] rfl rfl rfl rfl rfl rfl

/-- C16 as stated fails for `playerMoveItemFromInvToPos`: player 1 cannot throw to the
destination and slot 4 does not hold the claimed item 2222; the outcome is the silent
abort of the identity match, not a cancel message, and the world is not even asked whether
the throw is possible. -/
theorem GameEngine.invToPos_identity_before_throw :
    (blockedWorld.creatureCanThrowTo 1 { x := 101, y := 100, z := 7 }).1 = false ∧
    (({ sampleEngine with world_ := some blockedWorld } : GameEngine).playerMoveItemFromInvToPos
      1 4 2222 1 { x := 101, y := 100, z := 7 }).map
        (fun e1 => (e1.sentTo 1, e1.worldCalls)) = some ([], []) := by
  decide

/-- C16, amended: `playerMoveItemFromPosToInv` checks reachability first: when the player
cannot reach the source the outcome is the cancel message `You are too far away.`,
whatever item is at the source (the tile is not inspected).  `playerMoveItemFromInvToPos`
checks the item's identity first: when the item in the slot is valid and matches and the
player cannot throw to the destination, the outcome is the cancel message `There is no
room.`; when the item is invalid or does not match, the call leaves the engine as it is,
whether or not the throw is possible. -/
theorem GameEngine.transfer_validation_order (e : GameEngine) (creatureId : CreatureId)
    (player : Player) (playerCtrl : PlayerCtrl) (world : World)
    (hp : e.getPlayer creatureId = some player)
    (hc : e.getPlayerCtrl creatureId = some playerCtrl) (hw : e.world_ = some world) :
    (∀ (fromPosition : Position) (fromStackPos itemId count toInventoryId : Int),
      (world.creatureCanReach creatureId fromPosition).1 = false →
      ∃ e1, e.playerMoveItemFromPosToInv creatureId fromPosition fromStackPos itemId count
          toInventoryId = some e1 ∧
        e1.sentTo creatureId =
          playerCtrl.sent ++ [PlayerMessage.cancel "You are too far away.".toList] ∧
        e1.worldCalls = world.calls ++ [WorldCall.creatureCanReach creatureId fromPosition] ∧
        e1.players_ = e.players_) ∧
    (∀ (fromInventoryId itemId count : Int) (toPosition : Position),
      (player.equipment.getItem fromInventoryId).isValid = true →
      (player.equipment.getItem fromInventoryId).itemId = itemId →
      (world.creatureCanThrowTo creatureId toPosition).1 = false →
      ∃ e1, e.playerMoveItemFromInvToPos creatureId fromInventoryId itemId count toPosition =
          some e1 ∧
        e1.sentTo creatureId =
          playerCtrl.sent ++ [PlayerMessage.cancel "There is no room.".toList] ∧
        e1.worldCalls = world.calls ++ [WorldCall.creatureCanThrowTo creatureId toPosition] ∧
        e1.players_ = e.players_) ∧
    (∀ (fromInventoryId itemId count : Int) (toPosition : Position),
      ((player.equipment.getItem fromInventoryId).isValid = false ∨
        (player.equipment.getItem fromInventoryId).itemId ≠ itemId) →
      e.playerMoveItemFromInvToPos creatureId fromInventoryId itemId count toPosition =
        some e) := by
  refine ⟨?_, ?_, ?_⟩
  · intro fromPosition fromStackPos itemId count toInventoryId hreach
    simp only [GameEngine.playerMoveItemFromPosToInv, hp, hc, hw, Option.bind_eq_bind,
      Option.some_bind, Option.pure_def]
    rw [if_pos hreach]
    exact ⟨_, rfl,
      by simp [GameEngine.sentTo, GameEngine.setPlayerCtrl, PlayerCtrl.sendCancel],
      by simp [GameEngine.worldCalls, GameEngine.setPlayerCtrl, World.creatureCanReach,
        World.record], rfl⟩
  · intro fromInventoryId itemId count toPosition hvalid hid hthrow
    simp only [GameEngine.playerMoveItemFromInvToPos, hp, hc, hw, Option.bind_eq_bind,
      Option.some_bind, Option.pure_def]
    rw [if_neg (by simp [hvalid, hid]), if_pos hthrow]
    exact ⟨_, rfl,
      by simp [GameEngine.sentTo, GameEngine.setPlayerCtrl, PlayerCtrl.sendCancel],
      by simp [GameEngine.worldCalls, GameEngine.setPlayerCtrl, World.creatureCanThrowTo,
        World.record], rfl⟩
  · intro fromInventoryId itemId count toPosition hbad
    simp only [GameEngine.playerMoveItemFromInvToPos, hp, hc, Option.bind_eq_bind,
      Option.some_bind, Option.pure_def]
    rw [if_pos hbad]

/-- C16, amended, at player 1 of the sample engine in a world where nothing can be reached
or thrown to: taking item 2222 from a tile is answered with `You are too far away.`;
throwing the torch of slot 5 is answered with `There is no room.`; throwing item 2222 out
of the empty slot 4 leaves the engine as it is. -/
theorem GameEngine.transfer_validation_order_witness :
    (∃ e1, ({ sampleEngine with world_ := some blockedWorld } :
        GameEngine).playerMoveItemFromPosToInv 1 { x := 101, y := 100, z := 7 } 0 2222 1 4 =
          some e1 ∧
      e1.sentTo 1 = [] ++ [PlayerMessage.cancel "You are too far away.".toList] ∧
      e1.worldCalls = blockedWorld.calls ++
        [WorldCall.creatureCanReach 1 { x := 101, y := 100, z := 7 }] ∧
      e1.players_ = sampleEngine.players_) ∧
    (∃ e1, ({ sampleEngine with world_ := some blockedWorld } :
        GameEngine).playerMoveItemFromInvToPos 1 5 2222 1 { x := 101, y := 100, z := 7 } =
          some e1 ∧
      e1.sentTo 1 = [] ++ [PlayerMessage.cancel "There is no room.".toList] ∧
      e1.worldCalls = blockedWorld.calls ++
        [WorldCall.creatureCanThrowTo 1 { x := 101, y := 100, z := 7 }] ∧
      e1.players_ = sampleEngine.players_) ∧
    ({ sampleEngine with world_ := some blockedWorld } : GameEngine).playerMoveItemFromInvToPos
        1 4 2222 1 { x := 101, y := 100, z := 7 } =
      some { sampleEngine with world_ := some blockedWorld } :=
  ⟨(GameEngine.transfer_validation_order
      ({ sampleEngine with world_ := some blockedWorld } : GameEngine) 1 samplePlayer
      { nextWalkTime := 500, queuedMoves := [], sent := [] } blockedWorld rfl rfl rfl).1
      { x := 101, y := 100, z := 7 } 0 2222 1 4 rfl,
   (GameEngine.transfer_validation_order
      ({ sampleEngine with world_ := some blockedWorld } : GameEngine) 1 samplePlayer
      { nextWalkTime := 500, queuedMoves := [], sent := [] } blockedWorld rfl rfl rfl).2.1
      5 2222 1 { x := 101, y := 100, z := 7 } rfl rfl rfl,
   (GameEngine.transfer_validation_order
      ({ sampleEngine with world_ := some blockedWorld } : GameEngine) 1 samplePlayer
      { nextWalkTime := 500, queuedMoves := [], sent := [] } blockedWorld rfl rfl rfl).2.2
      4 2222 1 { x := 101, y := 100, z := 7 } (Or.inl rfl)⟩

end GameServer
